import Mathlib

/-!
Verification of `planemo/galaxy_config.py` (configuration resolution and
assembly engine).

The Python module is shallowly embedded below.  Python option values
(`kwds` entries) are modelled by `PyVal`; Python dictionaries by
association lists with first-match lookup (`lookupKV`) and
replace-or-append assignment (`setKV`), matching `dict.__getitem__` /
`dict.__setitem__` observable behaviour for the accesses this module
performs.  The filesystem (`os.path` and existence tests) is an abstract
structure `FS`.  Fallible Python code (raised exceptions) is modelled
with `Except PyErr`.  All definitions are fuel-free or use
structurally-decreasing fuel equal to input length, so every function
evaluates by kernel reduction on concrete inputs.
-/

set_option maxHeartbeats 1000000

/-- A Python value as it appears in the `kwds` option mapping and in the
properties dictionary: `None`, a boolean, an integer or a string.
Path-valued options (`config_directory`, `galaxy_root`, `test_data`,
`tool_data_table`) are modelled as strings, which is the only type the
source can use them at without raising. -/
inductive PyVal where
  | pvNone : PyVal
  | pvBool : Bool → PyVal
  | pvInt : Int → PyVal
  | pvStr : String → PyVal
  deriving DecidableEq, Repr

/-- Python truthiness of a `PyVal` (`if val:`). -/
def truthy : PyVal → Bool
  | .pvNone => false
  | .pvBool b => b
  | .pvInt n => n != 0
  | .pvStr s => s != ""

/-- Python `str()` of a `PyVal`, as used by `Template` substitution
(`'%s' % value`). -/
def pyStr : PyVal → String
  | .pvNone => "None"
  | .pvBool true => "True"
  | .pvBool false => "False"
  | .pvInt n => toString n
  | .pvStr s => s

/-- First-match association-list lookup: `d[k]` / `d.get(k)`. -/
def lookupKV {α : Type} : List (String × α) → String → Option α
  | [], _ => none
  | (k', v) :: rest, k => if k' = k then some v else lookupKV rest k

/-- `d.get(k, None)` on a `PyVal`-valued dictionary. -/
def getD (l : List (String × PyVal)) (k : String) : PyVal :=
  (lookupKV l k).getD .pvNone

/-- `d[k] = v`: replace the existing binding or append a new one. -/
def setKV {α : Type} : List (String × α) → String → α → List (String × α)
  | [], k, v => [(k, v)]
  | (k', v') :: rest, k, v =>
    if k' = k then (k, v) :: rest else (k', v') :: setKV rest k v

/-- A truthy string-valued option: `kwds.get(key)` when the source then
uses the value as a path (so it is a string in any non-crashing run). -/
def truthyStr (l : List (String × PyVal)) (k : String) : Option String :=
  match getD l k with
  | .pvStr s => if s = "" then none else some s
  | _ => none

/-! ## Template substitution (`string.Template.safe_substitute`)

`__sub(template, args)` is `Template(template).safe_substitute(args)` with
`None` mapped to `""`.  The `Template` pattern (Python 2.7, `IGNORECASE`)
recognises, after a `$`: an escaped `$$`; a named identifier
`[_A-Za-z][_A-Za-z0-9]*`; a braced identifier `{ident}`; otherwise the
`$` is "invalid" and `safe_substitute` leaves it verbatim and continues
after it.  Unknown named/braced identifiers are left verbatim. -/

/-- First character of a Python `Template` identifier. -/
def isIdStart (c : Char) : Bool :=
  c == '_' || ('a' ≤ c && c ≤ 'z') || ('A' ≤ c && c ≤ 'Z')

/-- Subsequent character of a Python `Template` identifier. -/
def isIdCont (c : Char) : Bool :=
  isIdStart c || ('0' ≤ c && c ≤ '9')

/-- A nonempty string matching `[_A-Za-z][_A-Za-z0-9]*`. -/
def validId (k : String) : Bool :=
  match k.data with
  | [] => false
  | c :: cs => isIdStart c && cs.all isIdCont

/-- Scan the inside of `${...}`: an identifier followed by `}`.  Returns
the identifier and the remainder after the closing brace. -/
def scanBraced : List Char → Option (String × List Char)
  | [] => none
  | c :: r =>
    if isIdStart c then
      match r.dropWhile isIdCont with
      | '}' :: r2 => some (String.mk (c :: r.takeWhile isIdCont), r2)
      | _ => none
    else none

/-- Core of `safe_substitute`, structurally recursive on a fuel that is
kept at least as large as the remaining character list. -/
def subCharsF (args : List (String × String)) : Nat → List Char → String
  | _, [] => ""
  | 0, _ :: _ => ""
  | n + 1, c :: rest =>
    if c = '$' then
      match rest with
      | [] => "$"
      | d :: r2 =>
        if d = '$' then
          "$" ++ subCharsF args n r2
        else if d = '{' then
          match scanBraced r2 with
          | some (k, r3) =>
            (match lookupKV args k with
             | some v => v
             | none => "$\x7b" ++ k ++ "\x7d") ++ subCharsF args n r3
          | none => "$" ++ subCharsF args n (d :: r2)
        else if isIdStart d then
          (match lookupKV args (String.mk (d :: r2.takeWhile isIdCont)) with
           | some v => v
           | none => "$" ++ String.mk (d :: r2.takeWhile isIdCont)) ++
            subCharsF args n (r2.dropWhile isIdCont)
        else
          "$" ++ subCharsF args n (d :: r2)
    else
      String.singleton c ++ subCharsF args n rest

/-- `safe_substitute` over a character list. -/
def subChars (args : List (String × String)) (l : List Char) : String :=
  subCharsF args l.length l

/-- `Template(s).safe_substitute(args)`. -/
def subStr (s : String) (args : List (String × String)) : String :=
  subChars args s.data

/-- `__sub(template, args)`: `None` yields the empty string. -/
def sub (template : Option String) (args : List (String × String)) : String :=
  match template with
  | none => ""
  | some t => subStr t args

/-- `__sub` applied to a stored `PyVal` property value, as
`__build_env_for_galaxy` does: `None` → `""`, strings are substituted,
any other value makes `Template` raise `TypeError`. -/
def subPyVal (v : PyVal) (args : List (String × String)) : Except Unit String :=
  match v with
  | .pvNone => .ok ""
  | .pvStr s => .ok (subStr s args)
  | _ => .error ()

/-! ## Module constants -/

/-- `WEB_SERVER_CONFIG_TEMPLATE`. -/
def WEB_SERVER_CONFIG_TEMPLATE : String :=
  "\n[server:main]\nuse = egg:Paste#http\nport = ${port}\nhost = ${host}\nuse_threadpool = True\nthreadpool_kill_thread_limit = 10800\n[app:main]\npaste.app_factory = galaxy.web.buildapp:app_factory\n"

/-- `TOOL_CONF_TEMPLATE`. -/
def TOOL_CONF_TEMPLATE : String :=
  "<toolbox>\n  <section id=\"data_source\" name=\"Data Source\">\n    <tool file=\"data_source/upload.xml\" />\n  </section>\n  <section id=\"testing\" name=\"Test Tools\">\n    ${tool_definition}\n  </section>\n</toolbox>\n"

/-- `EMPTY_JOB_METRICS_TEMPLATE`. -/
def EMPTY_JOB_METRICS_TEMPLATE : String :=
  "<?xml version=\"1.0\"?>\n<job_metrics>\n</job_metrics>\n"

/-- `BREW_DEPENDENCY_RESOLUTION_CONF`. -/
def BREW_DEPENDENCY_RESOLUTION_CONF : String :=
  "<dependency_resolvers>\n  <homebrew />\n  <!--\n  <homebrew versionless=\"true\" />\n  -->\n</dependency_resolvers>\n"

/-- `SHED_BREW_DEPENDENCY_RESOLUTION_CONF`. -/
def SHED_BREW_DEPENDENCY_RESOLUTION_CONF : String :=
  "<dependency_resolvers>\n  <tool_shed_tap />\n</dependency_resolvers>\n"

/-- `STOCK_DEPENDENCY_RESOLUTION_STRATEGIES` (a two-key dict, modelled in
source order; iteration order is irrelevant because selecting both keys
is rejected before the dict is consulted). -/
def STOCK_DEPENDENCY_RESOLUTION_STRATEGIES : List (String × String) :=
  [("brew_dependency_resolution", BREW_DEPENDENCY_RESOLUTION_CONF),
   ("shed_brew_dependency_resolution", SHED_BREW_DEPENDENCY_RESOLUTION_CONF)]

/-- `EMPTY_TOOL_CONF_TEMPLATE`. -/
def EMPTY_TOOL_CONF_TEMPLATE : String := "<toolbox></toolbox>"

/-- `DATABASE_TEMPLATE_URL`. -/
def DATABASE_TEMPLATE_URL : String :=
  "https://github.com/jmchilton/galaxy-downloads/raw/master/db_gx_rev_0120.sqlite"

/-- Errors this module can raise: `click.UsageError` from
`__handle_dependency_resolution`, the root-not-found `Exception` from
`__find_galaxy_root`, an unhandled I/O error while writing an artifact,
and `TypeError` from substituting a non-string property value. -/
inductive PyErr where
  | usageError : PyErr
  | rootNotFound : PyErr
  | ioError : PyErr
  | typeError : PyErr
  deriving DecidableEq, Repr

/-! ## Filesystem abstraction

`FS` packages the `os` / `os.path` primitives the module calls, plus the
working directory.  `depth` with `dirname_depth` expresses that iterated
`os.path.dirname` reaches a fixed point (the filesystem root), which is
what terminates the upward walk in `__find_galaxy_root`.  `joinp_ne`
records that `os.path.join` with a nonempty component is nonempty. -/
structure FS where
  isdir : String → Bool
  isfile : String → Bool
  pexists : String → Bool
  dirname : String → String
  joinp : String → String → String
  abspath : String → String
  cwd : String
  depth : String → Nat
  dirname_depth : ∀ p, dirname p ≠ p → depth (dirname p) < depth p
  joinp_ne : ∀ a b, b ≠ "" → joinp a b ≠ ""

/-- The planemo `ctx` object: only `ctx.global_config` is consulted. -/
structure Ctx where
  global_config : List (String × PyVal)

/-! ## Filesystem discovery (`__search_tool_path_for` and friends) -/

/-- The candidate directory list of `__search_tool_path_for`:
`[tool_dir, "."] + extra_paths` where `tool_dir` is the tool path itself
if it is a directory and its parent otherwise. -/
def possibleDirs (fs : FS) (path : String) (extraPaths : List String) : List String :=
  (if fs.isdir path then path else fs.dirname path) :: "." :: extraPaths

/-- The `for possible_dir in possible_dirs` loop body: return the
absolutised first candidate whose join with `target` exists. -/
def searchDirs (fs : FS) (target : String) : List String → Option String
  | [] => none
  | d :: rest =>
    if fs.pexists (fs.joinp d target) then some (fs.abspath (fs.joinp d target))
    else searchDirs fs target rest

/-- `__search_tool_path_for(path, target, extra_paths)`. -/
def searchToolPathFor (fs : FS) (path target : String) (extraPaths : List String) :
    Option String :=
  searchDirs fs target (possibleDirs fs path extraPaths)

/-- `__find_test_data(path, **kwds)` (the warning on a miss is not part
of the returned value). -/
def findTestData (fs : FS) (path : String) (kwds : List (String × PyVal)) :
    Option String :=
  match truthyStr kwds "test_data" with
  | some s => some (fs.abspath s)
  | none => searchToolPathFor fs path "test-data" []

/-- `__find_tool_data_table(path, test_data_dir, **kwds)`. -/
def findToolDataTable (fs : FS) (path : String) (testDataDir : Option String)
    (kwds : List (String × PyVal)) : Option String :=
  match truthyStr kwds "tool_data_table" with
  | some s => some (fs.abspath s)
  | none =>
    searchToolPathFor fs path "tool_data_table_conf.xml.test"
      (match testDataDir with | some d => [d] | none => [])

/-! ## Root discovery (`__find_galaxy_root`) -/

/-- One ancestor directory is a Galaxy root when it holds a `run.sh`
file and a `config` subdirectory. -/
def goodRoot (fs : FS) (d : String) : Bool :=
  fs.isfile (fs.joinp d "run.sh") && fs.isdir (fs.joinp d "config")

/-- The `while True` upward walk, with fuel bounded below by
`fs.depth d`. -/
def walkUpF (fs : FS) : Nat → String → Option String
  | 0, _ => none
  | n + 1, d =>
    if goodRoot fs d then some d
    else if fs.dirname d = d then none
    else walkUpF fs n (fs.dirname d)

/-- The upward walk from `d` (fuel `fs.depth d + 1` always suffices,
see `walkUpF_congr`). -/
def walkUp (fs : FS) (d : String) : Option String :=
  walkUpF fs (fs.depth d + 1) d

/-- The chain of directories the walk visits: `d`, `dirname d`, … up to
the fixed point of `dirname`. -/
def ancestorsF (fs : FS) : Nat → String → List String
  | 0, _ => []
  | n + 1, d => d :: (if fs.dirname d = d then [] else ancestorsF fs n (fs.dirname d))

/-- All ancestors of `d`, including `d` itself and the filesystem root. -/
def ancestors (fs : FS) (d : String) : List String :=
  ancestorsF fs (fs.depth d + 1) d

/-- `__find_galaxy_root(ctx, **kwds)`. -/
def findGalaxyRoot (fs : FS) (ctx : Ctx) (kwds : List (String × PyVal)) :
    Except PyErr String :=
  match truthyStr kwds "galaxy_root" with
  | some s => .ok s
  | none =>
    match truthyStr ctx.global_config "galaxy_root" with
    | some s => .ok s
    | none =>
      match walkUp fs fs.cwd with
      | some d => .ok d
      | none => .error .rootNotFound

/-! ## Property assembly and environment mapping -/

/-- `__tool_conf_entry_for(tool_path)`: a `%s` template for a directory
or for a single file. -/
def toolConfEntryFor (fs : FS) (toolPath : String) : String :=
  if fs.isdir toolPath then "<tool_dir dir=\"%s\" />" else "<tool file=\"%s\" />"

/-- Python `template % value` for a template holding a single `%s`. -/
def percentS : List Char → String → String
  | [], _ => ""
  | '%' :: 's' :: r, v => v ++ String.mk r
  | c :: r, v => String.singleton c ++ percentS r v

/-- The three mutually exclusive resolver-strategy option keys, in
source order. -/
def resolutionsStrategies : List String :=
  ["brew_dependency_resolution", "dependency_resolvers_config_file",
   "shed_brew_dependency_resolution"]

/-- `selected_strategies`: how many of the three strategy options are
truthy. -/
def countSelected (kwds : List (String × PyVal)) : Nat :=
  resolutionsStrategies.countP (fun k => truthy (getD kwds k))

/-- The `for key in STOCK_DEPENDENCY_RESOLUTION_STRATEGIES` loop in
`__handle_dependency_resolution`: each selected stock strategy writes
`resolvers_conf.xml` and mutates `kwds`.  Note the source joins the
literal string `"config_directory"` (not the variable) for
`tool_dependency_dir`; the model reproduces that.  An I/O failure at
write index `ioFailAt` raises. -/
def stockLoop (fs : FS) (cfgDir : String) (ioFailAt : Option Nat) :
    List (String × String) → List (String × PyVal) → List (String × String) →
    Except PyErr (List (String × PyVal)) × List (String × String)
  | [], kwds, w => (.ok kwds, w)
  | (key, conf) :: rest, kwds, w =>
    if truthy (getD kwds key) then
      if ioFailAt = some w.length then (.error .ioError, w)
      else
        stockLoop fs cfgDir ioFailAt rest
          (setKV (setKV kwds "tool_dependency_dir"
              (.pvStr (fs.joinp "config_directory" "deps")))
            "dependency_resolvers_config_file"
            (.pvStr (fs.joinp cfgDir "resolvers_conf.xml")))
          (w ++ [(fs.joinp cfgDir "resolvers_conf.xml", conf)])
    else stockLoop fs cfgDir ioFailAt rest kwds w

/-- `__handle_dependency_resolution(config_directory, kwds)`: raise a
usage error when more than one strategy is selected, otherwise process
the stock strategies. -/
def handleDependencyResolution (fs : FS) (cfgDir : String) (ioFailAt : Option Nat)
    (kwds : List (String × PyVal)) (w : List (String × String)) :
    Except PyErr (List (String × PyVal)) × List (String × String) :=
  if countSelected kwds > 1 then (.error .usageError, w)
  else stockLoop fs cfgDir ioFailAt STOCK_DEPENDENCY_RESOLUTION_STRATEGIES kwds w

/-- `__handle_job_metrics(config_directory, kwds)`: always write an
empty job-metrics file and point `kwds["job_metrics_config_file"]` at
it. -/
def handleJobMetrics (fs : FS) (cfgDir : String) (ioFailAt : Option Nat)
    (kwds : List (String × PyVal)) (w : List (String × String)) :
    Except PyErr (List (String × PyVal)) × List (String × String) :=
  if ioFailAt = some w.length then (.error .ioError, w)
  else
    (.ok (setKV kwds "job_metrics_config_file"
        (.pvStr (fs.joinp cfgDir "job_metrics_conf.xml"))),
     w ++ [(fs.joinp cfgDir "job_metrics_conf.xml", EMPTY_JOB_METRICS_TEMPLATE)])

/-- `kwds_gx_properties`: the override allow-list of
`__handle_kwd_overrides`. -/
def kwdsGxProperties : List String :=
  ["job_config_file", "job_metrics_config_file",
   "dependency_resolvers_config_file", "tool_dependency_dir"]

/-- One step of `__handle_kwd_overrides`: a truthy `kwds` value for
`prop` is written into the property map. -/
def overrideOne (kwds : List (String × PyVal)) (props : List (String × PyVal))
    (prop : String) : List (String × PyVal) :=
  if truthy (getD kwds prop) then setKV props prop (getD kwds prop) else props

/-- `__handle_kwd_overrides(properties, kwds)`. -/
def handleKwdOverrides (props : List (String × PyVal))
    (kwds : List (String × PyVal)) : List (String × PyVal) :=
  kwdsGxProperties.foldl (overrideOne kwds) props

/-- The `template_args` dict, values already through Python `str()` as
`safe_substitute` would apply it. -/
def templateArgs (kwds : List (String × PyVal)) (cfgDir dbLoc toolDef toolPath toolConf : String) :
    List (String × String) :=
  [("port", pyStr ((lookupKV kwds "port").getD (.pvInt 9090))),
   ("host", "127.0.0.1"),
   ("temp_directory", cfgDir),
   ("database_location", dbLoc),
   ("tool_definition", percentS toolDef.data toolPath),
   ("tool_conf", toolConf),
   ("debug", pyStr ((lookupKV kwds "debug").getD (.pvStr "true"))),
   ("master_api_key", pyStr ((lookupKV kwds "master_api_key").getD (.pvStr "test_key"))),
   ("id_secret", pyStr ((lookupKV kwds "id_secret").getD (.pvStr "test_secret"))),
   ("log_level", pyStr ((lookupKV kwds "log_level").getD (.pvStr "DEBUG")))]

/-- The `properties` dict as first assembled (before
`__handle_kwd_overrides`), including the conditional
`database_connection` entry. -/
def derivedProperties (forTests : Bool) (toolConf : String)
    (toolDataTable : Option String) (emptyToolConf : String)
    (testDataDir : Option String) : List (String × PyVal) :=
  [("file_path", .pvStr "${temp_directory}files"),
   ("new_file_path", .pvStr "${temp_directory}/tmp"),
   ("tool_config_file", .pvStr toolConf),
   ("check_migrate_tools", .pvStr "False"),
   ("manage_dependency_relationships", .pvStr "False"),
   ("job_working_directory", .pvStr "${temp_directory}/job_working_directory"),
   ("template_cache_path", .pvStr "${temp_directory}/compiled_templates"),
   ("citation_cache_type", .pvStr "file"),
   ("citation_cache_data_dir", .pvStr "${temp_directory}/citations/data"),
   ("citation_cache_lock_dir", .pvStr "${temp_directory}/citations/lock"),
   ("collect_outputs_from", .pvStr "job_working_directory"),
   ("database_auto_migrate", .pvStr "True"),
   ("cleanup_job", .pvStr "never"),
   ("master_api_key", .pvStr "${master_api_key}"),
   ("id_secret", .pvStr "${id_secret}"),
   ("log_level", .pvStr "${log_level}"),
   ("debug", .pvStr "${debug}"),
   ("tool_data_table_config_path",
     match toolDataTable with | some s => .pvStr s | none => .pvNone),
   ("integrated_tool_panel_config",
     .pvStr "${temp_directory}/integrated_tool_panel_conf.xml"),
   ("amqp_internal_connection", .pvStr "sqlalchemy+sqlite://"),
   ("migrated_tools_config", .pvStr emptyToolConf),
   ("test_data_dir", match testDataDir with | some s => .pvStr s | none => .pvNone)] ++
  (if forTests then []
   else [("database_connection",
     .pvStr "sqlite:///${database_location}?isolation_level=IMMEDIATE")])

/-- `key.upper()` (ASCII uppercase, character by character; equivalent
to `String.toUpper`, written over `data` so that it evaluates by kernel
reduction). -/
def upperStr (s : String) : String := String.mk (s.data.map Char.toUpper)

/-- The environment-variable name for a property key. -/
def envVarOf (k : String) : String := "GALAXY_CONFIG_OVERRIDE_" ++ upperStr k

/-- The `for key, value in properties.iteritems()` loop of
`__build_env_for_galaxy`, accumulating into `env`. -/
def buildEnvGo (args : List (String × String)) :
    List (String × PyVal) → List (String × PyVal) →
    Except PyErr (List (String × PyVal))
  | [], env => .ok env
  | (k, v) :: rest, env =>
    match subPyVal v args with
    | .error _ => .error .typeError
    | .ok s => buildEnvGo args rest (setKV env (envVarOf k) (.pvStr s))

/-- `__build_env_for_galaxy(properties, template_args)`. -/
def buildEnvForGalaxy (props : List (String × PyVal))
    (args : List (String × String)) : Except PyErr (List (String × PyVal)) :=
  buildEnvGo args props []

/-- `test_property_variants`: legacy alias environment-variable names,
in source order. -/
def testPropertyVariants : List (String × String) :=
  [("GALAXY_TEST_MIGRATED_TOOL_CONF", "migrated_tools_config"),
   ("GALAXY_TEST_SHED_TOOL_CONF", "migrated_tools_config"),
   ("GALAXY_TEST_TOOL_CONF", "tool_config_file"),
   ("GALAXY_TEST_FILE_DIR", "test_data_dir"),
   ("GALAXY_TOOL_DEPENDENCY_DIR", "tool_dependency_dir")]

/-- `__build_test_env(properties, env)`: each alias is set to the raw
property value when that value is present and not `None`. -/
def buildTestEnv (props : List (String × PyVal)) (env : List (String × PyVal)) :
    List (String × PyVal) :=
  testPropertyVariants.foldl
    (fun e tv =>
      match getD props tv.2 with
      | .pvNone => e
      | v => setKV e tv.1 v)
    env

/-! ## The configuration session (`galaxy_config` context manager) -/

/-- The value the context manager yields (`GalaxyConfig`), together with
the property map snapshots the proofs refer to: `propsBefore` is the
`properties` dict as assembled at source line 160, `props` the same dict
after `__handle_kwd_overrides` ran (the final property map the
environment is built from). -/
structure SessionPayload where
  galaxyRoot : Option String
  configDirectory : String
  env : List (String × PyVal)
  testDataDir : Option String
  propsBefore : List (String × PyVal)
  props : List (String × PyVal)
  deriving Repr

/-- The observable outcome of one `galaxy_config` session: the yielded
value or the raised error, the generated files written so far (path and
contents, in order), whether the session created its config directory,
whether the directory was removed on exit, and whether
`__find_galaxy_root` was invoked. -/
structure RunResult where
  outcome : Except PyErr SessionPayload
  writes : List (String × String)
  created : Bool
  dirRemoved : Bool
  rootDiscoveryRan : Bool
  deriving Repr

/-- The body of the `try:` block of `galaxy_config`, from
`__install_galaxy_if_needed` to the `yield`.  `root0` is the root
resolved before the block, `cfgDir` the config directory, `install`
whether `install_galaxy` was truthy, `netOk` whether the best-effort
`urlretrieve` of the seeded database succeeds, and `ioFailAt` the index
of the artifact write that raises an I/O error (if any). -/
def runBody (fs : FS) (toolPath : String) (forTests : Bool)
    (kwds : List (String × PyVal)) (netOk : Bool) (ioFailAt : Option Nat)
    (root0 : Option String) (install : Bool) (cfgDir : String)
    (testDataDir toolDataTable : Option String) :
    Except PyErr SessionPayload × List (String × String) :=
  let root1 := if install then some (fs.joinp cfgDir "galaxy-central-master") else root0
  match handleDependencyResolution fs cfgDir ioFailAt kwds [] with
  | (.error e, w) => (.error e, w)
  | (.ok kwds1, w1) =>
    match handleJobMetrics fs cfgDir ioFailAt kwds1 w1 with
    | (.error e, w) => (.error e, w)
    | (.ok kwds2, w2) =>
      let toolDef := toolConfEntryFor fs toolPath
      let emptyToolConf := fs.joinp cfgDir "empty_tool_conf.xml"
      let toolConf := fs.joinp cfgDir "tool_conf.xml"
      let dbLoc := fs.joinp cfgDir "galaxy.sqlite"
      let preseeded := netOk
      let w3 := if netOk then w2 ++ [(dbLoc, "db_gx_rev_0120.sqlite")] else w2
      let args := templateArgs kwds2 cfgDir dbLoc toolDef toolPath toolConf
      let props0 := derivedProperties forTests toolConf toolDataTable emptyToolConf testDataDir
      let props1 := handleKwdOverrides props0 kwds2
      match buildEnvForGalaxy props1 args with
      | .error e => (.error e, w3)
      | .ok env0 =>
        let env1 := buildTestEnv props1 env0
        let env2 :=
          if preseeded then setKV env1 "GALAXY_TEST_DB_TEMPLATE" (.pvStr DATABASE_TEMPLATE_URL)
          else env1
        let env3 := setKV env2 "GALAXY_TEST_UPLOAD_ASYNC" (.pvStr "false")
        if ioFailAt = some w3.length then (.error .ioError, w3)
        else
          let w4 := w3 ++ [(fs.joinp cfgDir "galaxy.ini", sub (some WEB_SERVER_CONFIG_TEMPLATE) args)]
          if ioFailAt = some w4.length then (.error .ioError, w4)
          else
            let w5 := w4 ++ [(toolConf, sub (some TOOL_CONF_TEMPLATE) args)]
            if ioFailAt = some w5.length then (.error .ioError, w5)
            else
              let w6 := w5 ++ [(emptyToolConf, EMPTY_TOOL_CONF_TEMPLATE)]
              (.ok ⟨root1, cfgDir, env3, testDataDir, props0, props1⟩, w6)

/-- One full `galaxy_config` session.  `tmpName` is the fresh directory
`mkdtemp()` returns when no `config_directory` option is supplied.  The
`finally:` clause removes the directory exactly when the session created
it, on every exit path from the `try:` block. -/
def run (fs : FS) (ctx : Ctx) (toolPath : String) (forTests : Bool)
    (kwds : List (String × PyVal)) (tmpName : String) (netOk : Bool)
    (ioFailAt : Option Nat) : RunResult :=
  let testDataDir := findTestData fs toolPath kwds
  let toolDataTable := findToolDataTable fs toolPath testDataDir kwds
  let install := truthy (getD kwds "install_galaxy")
  let rootRes : Except PyErr (Option String) :=
    if install then .ok none else (findGalaxyRoot fs ctx kwds).map some
  match rootRes with
  | .error e => ⟨.error e, [], false, false, !install⟩
  | .ok root0 =>
    let cfgOpt := truthyStr kwds "config_directory"
    let created := cfgOpt.isNone
    let cfgDir := cfgOpt.getD tmpName
    let body := runBody fs toolPath forTests kwds netOk ioFailAt root0 install cfgDir
      testDataDir toolDataTable
    ⟨body.1, body.2, created, created, !install⟩

/-! ## Concrete instances used by witnesses and counterexamples -/

/-- A small concrete filesystem: working directory `/w/proj`, a Galaxy
checkout at `/w` (holding `run.sh` and `config/`), a tool file
`/w/tools/mytool.xml` with a sibling `test-data` directory. -/
def fsEx : FS where
  isdir := fun p => p ∈ ["/", "/w", "/w/proj", "/w/config", "/w/tools", "/w/tools/test-data"]
  isfile := fun p => p ∈ ["/w/run.sh", "/w/tools/mytool.xml"]
  pexists := fun p =>
    p ∈ ["/", "/w", "/w/proj", "/w/config", "/w/tools", "/w/tools/test-data",
         "/w/run.sh", "/w/tools/mytool.xml"]
  dirname := fun p =>
    if p = "/w/proj" then "/w"
    else if p = "/w/tools/mytool.xml" then "/w/tools"
    else if p = "/w/tools/test-data" then "/w/tools"
    else if p = "/w/tools" then "/w"
    else if p = "/w/config" then "/w"
    else if p = "/w" then "/"
    else p
  joinp := fun a b => a ++ "/" ++ b
  abspath := fun p => if p = "." then "/w/proj" else p
  cwd := "/w/proj"
  depth := fun p =>
    if p = "/w/proj" then 2
    else if p = "/w/tools/mytool.xml" then 3
    else if p = "/w/tools/test-data" then 3
    else if p = "/w/tools" then 2
    else if p = "/w/config" then 2
    else if p = "/w" then 1
    else 0
  dirname_depth := by
    intro p h
    by_cases h1 : p = "/w/proj"
    · subst h1; decide
    by_cases h2 : p = "/w/tools/mytool.xml"
    · subst h2; decide
    by_cases h3 : p = "/w/tools/test-data"
    · subst h3; decide
    by_cases h4 : p = "/w/tools"
    · subst h4; decide
    by_cases h5 : p = "/w/config"
    · subst h5; decide
    by_cases h6 : p = "/w"
    · subst h6; decide
    · exact absurd (by simp [h1, h2, h3, h4, h5, h6]) h
  joinp_ne := by
    intro a b hb h
    have hl := congrArg String.length h
    simp [String.length_append] at hl
    exact absurd hl.1.2 (by decide)

/-- A concrete filesystem with no Galaxy root anywhere above the working
directory `/c`. -/
def fsBad : FS where
  isdir := fun _ => false
  isfile := fun _ => false
  pexists := fun _ => false
  dirname := fun p => if p = "/c" then "/" else p
  joinp := fun a b => a ++ "/" ++ b
  abspath := fun p => p
  cwd := "/c"
  depth := fun p => if p = "/c" then 1 else 0
  dirname_depth := by
    intro p h
    by_cases h1 : p = "/c"
    · subst h1; decide
    · exact absurd (by simp [h1]) h
  joinp_ne := by
    intro a b hb h
    have hl := congrArg String.length h
    simp [String.length_append] at hl
    exact absurd hl.1.2 (by decide)

/-- A context with an empty global configuration. -/
def ctxEx : Ctx where
  global_config := []

/-! ## Association-list lemmas -/

theorem lookupKV_setKV_self {α : Type} (l : List (String × α)) (k : String) (v : α) :
    lookupKV (setKV l k v) k = some v := by
  induction l with
  | nil => simp [setKV, lookupKV]
  | cons p rest ih =>
    obtain ⟨k', v'⟩ := p
    by_cases h : k' = k
    · simp [setKV, h, lookupKV]
    · simp [setKV, h, lookupKV, ih]

theorem lookupKV_setKV_ne {α : Type} (l : List (String × α)) (k' k : String) (v : α)
    (h : k' ≠ k) : lookupKV (setKV l k' v) k = lookupKV l k := by
  induction l with
  | nil => simp [setKV, lookupKV, h]
  | cons p rest ih =>
    obtain ⟨k0, v0⟩ := p
    by_cases h0 : k0 = k'
    · subst h0; simp [setKV, lookupKV, h]
    · simp [setKV, h0, lookupKV, ih]

theorem getD_setKV_self (l : List (String × PyVal)) (k : String) (v : PyVal) :
    getD (setKV l k v) k = v := by
  simp [getD, lookupKV_setKV_self]

theorem getD_setKV_ne (l : List (String × PyVal)) (k' k : String) (v : PyVal)
    (h : k' ≠ k) : getD (setKV l k' v) k = getD l k := by
  simp [getD, lookupKV_setKV_ne _ _ _ _ h]

/-! ## `__handle_kwd_overrides` lemmas -/

theorem overrideOne_falsy (kwds props : List (String × PyVal)) (p : String)
    (h : truthy (getD kwds p) = false) : overrideOne kwds props p = props := by
  simp [overrideOne, h]

theorem lookupKV_overrideOne_ne (kwds props : List (String × PyVal)) (p k : String)
    (h : p ≠ k) : lookupKV (overrideOne kwds props p) k = lookupKV props k := by
  unfold overrideOne
  by_cases ht : truthy (getD kwds p)
  · simp [ht, lookupKV_setKV_ne _ _ _ _ h]
  · simp [ht]

theorem lookupKV_overridesFold_notmem (keys : List String)
    (props kwds : List (String × PyVal)) (k : String) (hk : k ∉ keys) :
    lookupKV (keys.foldl (overrideOne kwds) props) k = lookupKV props k := by
  induction keys generalizing props with
  | nil => rfl
  | cons key rest ih =>
    have hne : key ≠ k := fun h => hk (h ▸ List.mem_cons_self _ _)
    have hkr : k ∉ rest := fun h => hk (List.mem_cons_of_mem _ h)
    simp only [List.foldl_cons]
    rw [ih _ hkr, lookupKV_overrideOne_ne _ _ _ _ hne]

theorem lookupKV_overridesFold_mem (keys : List String)
    (props kwds : List (String × PyVal)) (k : String) (hk : k ∈ keys)
    (hnd : keys.Nodup) (ht : truthy (getD kwds k) = true) :
    lookupKV (keys.foldl (overrideOne kwds) props) k = some (getD kwds k) := by
  induction keys generalizing props with
  | nil => cases hk
  | cons key rest ih =>
    simp only [List.foldl_cons]
    rcases List.mem_cons.mp hk with h | h
    · subst h
      have hkr : k ∉ rest := (List.nodup_cons.mp hnd).1
      rw [lookupKV_overridesFold_notmem _ _ _ _ hkr]
      simp [overrideOne, ht, lookupKV_setKV_self]
    · exact ih _ h (List.nodup_cons.mp hnd).2

theorem lookupKV_overridesFold_falsy (keys : List String)
    (props kwds : List (String × PyVal)) (k : String)
    (ht : truthy (getD kwds k) = false) :
    lookupKV (keys.foldl (overrideOne kwds) props) k = lookupKV props k := by
  induction keys generalizing props with
  | nil => rfl
  | cons key rest ih =>
    simp only [List.foldl_cons]
    by_cases h : key = k
    · subst h; rw [ih, overrideOne_falsy _ _ _ ht]
    · rw [ih, lookupKV_overrideOne_ne _ _ _ _ h]

/-- **C10**: a falsy user value for an allow-listed override key leaves
the property map unchanged for that key: `__handle_kwd_overrides` can
neither replace nor clear a derived property with a falsy override. -/
theorem claim10_falsy_override_ignored (props kwds : List (String × PyVal))
    (prop : String) (hmem : prop ∈ kwdsGxProperties)
    (hfalsy : truthy (getD kwds prop) = false) :
    lookupKV (handleKwdOverrides props kwds) prop = lookupKV props prop :=
  lookupKV_overridesFold_falsy _ _ _ _ hfalsy

/-- Witness for C10: an empty-string `job_config_file` override (and a
`None` `tool_dependency_dir`) leaves the derived property map
untouched. -/
theorem claim10_falsy_override_ignored_witness :
    lookupKV
      (handleKwdOverrides [("tool_dependency_dir", PyVal.pvStr "/deps")]
        [("job_config_file", PyVal.pvStr ""), ("tool_dependency_dir", PyVal.pvNone)])
      "tool_dependency_dir" =
      lookupKV [("tool_dependency_dir", PyVal.pvStr "/deps")] "tool_dependency_dir" :=
  claim10_falsy_override_ignored _ _ _ (by decide) (by decide)

/-! ## Substitution lemmas -/

theorem length_dropWhile_le (p : Char → Bool) (l : List Char) :
    (l.dropWhile p).length ≤ l.length := by
  induction l with
  | nil => simp [List.dropWhile]
  | cons c r ih =>
    by_cases h : p c <;> simp [List.dropWhile, h] <;> omega

theorem scanBraced_length_le (r : List Char) (k : String) (r2 : List Char)
    (h : scanBraced r = some (k, r2)) : r2.length ≤ r.length := by
  cases r with
  | nil => simp [scanBraced] at h
  | cons c rest =>
    simp only [scanBraced] at h
    by_cases hs : isIdStart c
    · simp only [hs, if_true] at h
      rcases hdrop : rest.dropWhile isIdCont with _ | ⟨d, r3⟩ <;> rw [hdrop] at h
      · simp at h
      · by_cases hd : d = '}'
        · subst hd
          simp only [Option.some.injEq, Prod.mk.injEq] at h
          obtain ⟨-, hr⟩ := h
          have h1 : (rest.dropWhile isIdCont).length ≤ rest.length :=
            length_dropWhile_le _ _
          rw [hdrop] at h1
          simp only [List.length_cons] at h1
          subst hr
          simp only [List.length_cons]
          omega
        · exfalso
          revert h
          cases hdc : decide (d = '}') with
          | false => simp [hd]
          | true => exact absurd (of_decide_eq_true hdc) hd
    · simp [hs] at h

theorem subCharsF_congr (args : List (String × String)) :
    ∀ n m : Nat, ∀ l : List Char, l.length ≤ n → l.length ≤ m →
      subCharsF args n l = subCharsF args m l := by
  intro n
  induction n with
  | zero =>
    intro m l hn _
    have : l = [] := List.eq_nil_of_length_eq_zero (Nat.le_zero.mp hn)
    subst this
    cases m <;> rfl
  | succ n ih =>
    intro m l hn hm
    cases l with
    | nil => cases m <;> rfl
    | cons c rest =>
      cases m with
      | zero => simp at hm
      | succ m' =>
        simp only [List.length_cons, Nat.succ_le_succ_iff] at hn hm
        simp only [subCharsF]
        by_cases hc : c = '$'
        · simp only [hc, if_true]
          cases rest with
          | nil => rfl
          | cons d r2 =>
            simp only [List.length_cons] at hn hm
            by_cases hd : d = '$'
            · simp only [hd, if_true]
              rw [ih m' r2 (by omega) (by omega)]
            · simp only [hd, if_false]
              by_cases hb : d = '{'
              · simp only [hb, if_true]
                rcases hsb : scanBraced r2 with _ | ⟨k, r3⟩
                · rw [ih m' ('{' :: r2) (by simp; omega) (by simp; omega)]
                · have hlen := scanBraced_length_le r2 k r3 hsb
                  dsimp only
                  rw [ih m' r3 (by omega) (by omega)]
              · simp only [hb, if_false]
                by_cases hi : isIdStart d
                · simp only [hi, if_true]
                  have hlen := length_dropWhile_le isIdCont r2
                  rw [ih m' (r2.dropWhile isIdCont) (by omega) (by omega)]
                · simp only [if_neg hi]
                  rw [ih m' (d :: r2) (by simp; omega) (by simp; omega)]
        · simp only [hc, if_false]
          rw [ih m' rest (by omega) (by omega)]

theorem subChars_nil (args : List (String × String)) : subChars args [] = "" := rfl

theorem subChars_cons_lit (args : List (String × String)) (c : Char) (l : List Char)
    (h : ¬c = '$') :
    subChars args (c :: l) = String.singleton c ++ subChars args l := by
  simp only [subChars, List.length_cons, subCharsF, if_neg h]

theorem dropWhile_idCont_append (cs suf : List Char) (h : cs.all isIdCont = true) :
    (cs ++ '}' :: suf).dropWhile isIdCont = '}' :: suf := by
  induction cs with
  | nil =>
    have hb : isIdCont '}' = false := by decide
    simp [List.dropWhile_cons, hb]
  | cons c cs ih =>
    simp only [List.all_cons, Bool.and_eq_true] at h
    simp [List.dropWhile_cons, h.1, ih h.2]

theorem takeWhile_idCont_append (cs suf : List Char) (h : cs.all isIdCont = true) :
    (cs ++ '}' :: suf).takeWhile isIdCont = cs := by
  induction cs with
  | nil =>
    have hb : isIdCont '}' = false := by decide
    simp [List.takeWhile_cons, hb]
  | cons c cs ih =>
    simp only [List.all_cons, Bool.and_eq_true] at h
    simp [List.takeWhile_cons, h.1, ih h.2]

theorem scanBraced_spec (k : String) (hk : validId k = true) (suf : List Char) :
    scanBraced (k.data ++ '}' :: suf) = some (k, suf) := by
  rcases hkd : k.data with _ | ⟨c, cs⟩
  · unfold validId at hk
    rw [hkd] at hk
    simp at hk
  · unfold validId at hk
    rw [hkd] at hk
    simp only [Bool.and_eq_true] at hk
    have hmk : String.mk (c :: cs) = k := by rw [← hkd]
    simp only [List.cons_append, scanBraced, hk.1, if_true,
      dropWhile_idCont_append cs suf hk.2, takeWhile_idCont_append cs suf hk.2, hmk]

theorem subChars_braced (args : List (String × String)) (k : String)
    (hk : validId k = true) (suf : List Char) :
    subChars args ('$' :: '{' :: (k.data ++ '}' :: suf)) =
      (match lookupKV args k with
       | some v => v
       | none => "$\x7b" ++ k ++ "\x7d") ++ subChars args suf := by
  have hs := scanBraced_spec k hk suf
  have hlen : suf.length ≤ (k.data ++ '}' :: suf).length := by
    simp [List.length_append]
    omega
  simp only [subChars, List.length_cons, subCharsF, if_pos rfl]
  have h1 : ¬('{' : Char) = '$' := by decide
  simp only [if_neg h1, if_pos rfl, hs, if_true]
  rw [subCharsF_congr args ((k.data ++ '}' :: suf).length + 1) suf.length suf
    (by omega) (by omega)]

theorem subChars_append_lit (args : List (String × String)) (pre : List Char)
    (h : '$' ∉ pre) (l : List Char) :
    subChars args (pre ++ l) = String.mk pre ++ subChars args l := by
  induction pre with
  | nil => rfl
  | cons c pre ih =>
    have hc : ¬c = '$' := fun hc => h (hc ▸ List.mem_cons_self _ _)
    have hpre : '$' ∉ pre := fun hm => h (List.mem_cons_of_mem _ hm)
    calc subChars args ((c :: pre) ++ l)
        = String.singleton c ++ subChars args (pre ++ l) :=
          subChars_cons_lit args c (pre ++ l) hc
      _ = String.singleton c ++ (String.mk pre ++ subChars args l) := by rw [ih hpre]
      _ = String.mk (c :: pre) ++ subChars args l := by
          rw [← String.append_assoc]; rfl

/-- **C5**: `__sub` of a `None` template is the empty string, and for
any template split as literal text (no `$`) followed by a `${key}`
placeholder and an arbitrary tail, substitution copies the literal text,
replaces the placeholder by its mapped value when `key` is bound and
leaves it verbatim when it is not (raising nothing in either case), and
continues on the tail. -/
theorem claim5_sub_contract :
    (∀ args : List (String × String), sub none args = "") ∧
    (∀ (pre suf : List Char) (k : String) (args : List (String × String)),
      '$' ∉ pre → validId k = true →
      subStr (String.mk (pre ++ '$' :: '{' :: (k.data ++ '}' :: suf))) args =
        String.mk pre ++
          ((match lookupKV args k with
            | some v => v
            | none => "$\x7b" ++ k ++ "\x7d") ++ subChars args suf)) := by
  constructor
  · intro args; rfl
  · intro pre suf k args hpre hk
    show subChars args (pre ++ '$' :: '{' :: (k.data ++ '}' :: suf)) = _
    rw [subChars_append_lit args pre hpre, subChars_braced args k hk suf]

/-- Witness for C5: `"a${x}b"` with `x ↦ "V"` substitutes to `"aVb"`,
and `"a${zz}b"` with `zz` unbound stays verbatim. -/
theorem claim5_sub_contract_witness :
    sub none [("x", "V")] = "" ∧
    subStr "a${x}b" [("x", "V")] =
      String.mk ['a'] ++
        ((match lookupKV [("x", "V")] "x" with
          | some v => v
          | none => "$\x7b" ++ "x" ++ "\x7d") ++ subChars [("x", "V")] ['b']) ∧
    subStr "a${zz}b" [("x", "V")] =
      String.mk ['a'] ++
        ((match lookupKV [("x", "V")] "zz" with
          | some v => v
          | none => "$\x7b" ++ "zz" ++ "\x7d") ++ subChars [("x", "V")] ['b']) :=
  ⟨claim5_sub_contract.1 [("x", "V")],
   claim5_sub_contract.2 ['a'] ['b'] "x" [("x", "V")] (by decide) (by decide),
   claim5_sub_contract.2 ['a'] ['b'] "zz" [("x", "V")] (by decide) (by decide)⟩

/-! ## Idempotence analysis (claim C6)

A template made of plain literal characters and well-formed `${ident}`
placeholders is represented as a list of chunks; `flattenChunks` gives
the template text and `renderChunks` the result of one substitution
pass. -/

/-- One template chunk: a literal character or a braced placeholder. -/
inductive Chunk where
  | lit : Char → Chunk
  | ph : String → Chunk
  deriving DecidableEq, Repr

/-- A chunk is well formed when a literal is not `$` and a placeholder
key is an identifier. -/
def chunkOk : Chunk → Bool
  | .lit c => c != '$'
  | .ph k => validId k

/-- The template text of one chunk. -/
def flattenChunk : Chunk → List Char
  | .lit c => [c]
  | .ph k => '$' :: '{' :: (k.data ++ ['}'])

/-- The template text of a chunk list. -/
def flattenChunks : List Chunk → List Char
  | [] => []
  | ch :: rest => flattenChunk ch ++ flattenChunks rest

/-- One substitution pass over one chunk. -/
def renderChunk (args : List (String × String)) : Chunk → String
  | .lit c => String.singleton c
  | .ph k =>
    match lookupKV args k with
    | some v => v
    | none => "$\x7b" ++ k ++ "\x7d"

/-- One substitution pass over a chunk list. -/
def renderChunks (args : List (String × String)) : List Chunk → String
  | [] => ""
  | ch :: rest => renderChunk args ch ++ renderChunks args rest

/-- No mapping value contains a `$`. -/
def noDollarVals (args : List (String × String)) : Bool :=
  args.all (fun p => p.2.data.all (fun c => c != '$'))

theorem subChars_flattenChunks (args : List (String × String)) :
    ∀ chunks : List Chunk, chunks.all chunkOk = true →
      subChars args (flattenChunks chunks) = renderChunks args chunks := by
  intro chunks
  induction chunks with
  | nil => intro _; rfl
  | cons ch rest ih =>
    intro h
    simp only [List.all_cons, Bool.and_eq_true] at h
    cases ch with
    | lit c =>
      have hc : ¬c = '$' := by
        have := h.1
        simp [chunkOk] at this
        exact this
      show subChars args (c :: flattenChunks rest) = _
      rw [subChars_cons_lit args c _ hc, ih h.2]
      rfl
    | ph k =>
      have hk : validId k = true := h.1
      have harr : flattenChunks (Chunk.ph k :: rest) =
          '$' :: '{' :: (k.data ++ '}' :: flattenChunks rest) := by
        show flattenChunk (Chunk.ph k) ++ flattenChunks rest = _
        simp [flattenChunk, List.append_assoc]
      rw [harr, subChars_braced args k hk (flattenChunks rest), ih h.2]
      rfl

/-- The chunks one pass of substitution leaves behind: bound
placeholders become the literal characters of their value, unbound ones
survive. -/
def expandChunk (args : List (String × String)) : Chunk → List Chunk
  | .lit c => [.lit c]
  | .ph k =>
    match lookupKV args k with
    | some v => v.data.map Chunk.lit
    | none => [.ph k]

/-- `expandChunk` mapped over a chunk list. -/
def expandChunks (args : List (String × String)) : List Chunk → List Chunk
  | [] => []
  | ch :: rest => expandChunk args ch ++ expandChunks args rest

theorem flattenChunks_append (l r : List Chunk) :
    flattenChunks (l ++ r) = flattenChunks l ++ flattenChunks r := by
  induction l with
  | nil => rfl
  | cons ch rest ih => simp [flattenChunks, ih, List.append_assoc]

theorem flattenChunks_map_lit (l : List Char) :
    flattenChunks (l.map Chunk.lit) = l := by
  induction l with
  | nil => rfl
  | cons c rest ih => simp [flattenChunks, flattenChunk, ih]

theorem renderChunks_append (args : List (String × String)) (l r : List Chunk) :
    renderChunks args (l ++ r) = renderChunks args l ++ renderChunks args r := by
  induction l with
  | nil =>
    show renderChunks args r = "" ++ renderChunks args r
    apply String.ext
    simp [String.data_append]
  | cons ch rest ih =>
    show renderChunk args ch ++ renderChunks args (rest ++ r) = _
    rw [ih]
    apply String.ext
    simp [String.data_append, renderChunks, List.append_assoc]

theorem renderChunks_map_lit (args : List (String × String)) (l : List Char) :
    renderChunks args (l.map Chunk.lit) = String.mk l := by
  induction l with
  | nil => rfl
  | cons c rest ih =>
    show String.singleton c ++ renderChunks args (rest.map Chunk.lit) = _
    rw [ih]
    rfl

theorem lookupKV_mem {α : Type} (l : List (String × α)) (k : String) (v : α)
    (h : lookupKV l k = some v) : (k, v) ∈ l := by
  induction l with
  | nil => simp [lookupKV] at h
  | cons p rest ih =>
    obtain ⟨k', v'⟩ := p
    by_cases hk : k' = k
    · subst hk
      simp [lookupKV] at h
      subst h
      exact List.mem_cons_self _ _
    · simp [lookupKV, hk] at h
      exact List.mem_cons_of_mem _ (ih h)

theorem flattenChunks_expandChunks (args : List (String × String)) :
    ∀ chunks : List Chunk,
      flattenChunks (expandChunks args chunks) = (renderChunks args chunks).data := by
  intro chunks
  induction chunks with
  | nil => rfl
  | cons ch rest ih =>
    show flattenChunks (expandChunk args ch ++ expandChunks args rest) = _
    rw [flattenChunks_append, ih]
    show _ = (renderChunk args ch ++ renderChunks args rest).data
    rw [String.data_append]
    congr 1
    cases ch with
    | lit c => rfl
    | ph k =>
      show flattenChunks (expandChunk args (Chunk.ph k)) = (renderChunk args (Chunk.ph k)).data
      unfold expandChunk renderChunk
      rcases hv : lookupKV args k with _ | v
      · simp only [hv]
        simp [flattenChunks, flattenChunk, String.data_append]
      · simp only [hv]
        exact flattenChunks_map_lit v.data

theorem expandChunks_ok (args : List (String × String)) (hargs : noDollarVals args = true) :
    ∀ chunks : List Chunk, chunks.all chunkOk = true →
      (expandChunks args chunks).all chunkOk = true := by
  intro chunks
  induction chunks with
  | nil => intro _; rfl
  | cons ch rest ih =>
    intro h
    simp only [List.all_cons, Bool.and_eq_true] at h
    show (expandChunk args ch ++ expandChunks args rest).all chunkOk = true
    rw [List.all_append, Bool.and_eq_true]
    refine ⟨?_, ih h.2⟩
    cases ch with
    | lit c => simpa [expandChunk] using h.1
    | ph k =>
      unfold expandChunk
      rcases hv : lookupKV args k with _ | v
      · simp only [hv]
        simpa using h.1
      · simp only [hv]
        have hmem := lookupKV_mem args k v hv
        have := List.all_eq_true.mp hargs ⟨k, v⟩ hmem
        simp only [List.all_eq_true] at this ⊢
        intro ch hch
        rcases List.mem_map.mp hch with ⟨c, hc, rfl⟩
        exact this c hc

theorem renderChunks_expandChunks (args : List (String × String)) :
    ∀ chunks : List Chunk,
      renderChunks args (expandChunks args chunks) = renderChunks args chunks := by
  intro chunks
  induction chunks with
  | nil => rfl
  | cons ch rest ih =>
    show renderChunks args (expandChunk args ch ++ expandChunks args rest) = _
    rw [renderChunks_append, ih]
    show _ = renderChunk args ch ++ renderChunks args rest
    congr 1
    cases ch with
    | lit c => rfl
    | ph k =>
      unfold expandChunk renderChunk
      rcases hv : lookupKV args k with _ | v
      · simp only [hv]
        apply String.ext
        simp [renderChunks, renderChunk, hv, String.data_append]
      · simp only [hv]
        exact renderChunks_map_lit args v.data

/-- **C6 counterexample**: substitution is not idempotent for all
templates and mappings.  With the empty mapping, one pass over `"$$$$"`
collapses the `$$` escapes to `"$$"`, and a second pass collapses that
again to `"$"`. -/
theorem claim6_idempotence_counterexample :
    subStr (subStr "$$$$" []) [] ≠ subStr "$$$$" [] ∧
    subStr "$$$$" [] = "$$" ∧ subStr (subStr "$$$$" []) [] = "$" := by
  refine ⟨?_, by decide, by decide⟩
  decide

/-- **C6 (amended)**: for templates consisting of literal text without
dollar signs and well-formed `${identifier}` placeholders, and mappings
whose values contain no dollar sign, a second substitution pass with the
same mapping yields the same string; in particular placeholders left
verbatim because their key is unbound stay verbatim.  (Substitution
itself is a total function, so it never raises for unknown
placeholders.) -/
theorem claim6_idempotent_on_wellformed (chunks : List Chunk)
    (args : List (String × String)) (hok : chunks.all chunkOk = true)
    (hargs : noDollarVals args = true) :
    subStr (subStr (String.mk (flattenChunks chunks)) args) args =
      subStr (String.mk (flattenChunks chunks)) args := by
  have hfirst : subStr (String.mk (flattenChunks chunks)) args =
      renderChunks args chunks := subChars_flattenChunks args chunks hok
  rw [hfirst]
  show subChars args (renderChunks args chunks).data = _
  rw [← flattenChunks_expandChunks args chunks]
  rw [subChars_flattenChunks args _ (expandChunks_ok args hargs chunks hok)]
  exact renderChunks_expandChunks args chunks

/-- Witness for amended C6: `"a${x}${zz}"` with `x ↦ "V"` substitutes to
`"aV${zz}"`, which re-substitutes to itself. -/
theorem claim6_idempotent_on_wellformed_witness :
    subStr
        (subStr (String.mk (flattenChunks [Chunk.lit 'a', Chunk.ph "x", Chunk.ph "zz"]))
          [("x", "V")])
        [("x", "V")] =
      subStr (String.mk (flattenChunks [Chunk.lit 'a', Chunk.ph "x", Chunk.ph "zz"]))
        [("x", "V")] :=
  claim6_idempotent_on_wellformed [Chunk.lit 'a', Chunk.ph "x", Chunk.ph "zz"]
    [("x", "V")] (by decide) (by decide)

/-! ## Discovery characterization (claim C7) -/

theorem searchDirs_eq_find (fs : FS) (target : String) (dirs : List String) :
    searchDirs fs target dirs =
      (dirs.find? (fun d => fs.pexists (fs.joinp d target))).map
        (fun d => fs.abspath (fs.joinp d target)) := by
  induction dirs with
  | nil => rfl
  | cons d rest ih =>
    by_cases h : fs.pexists (fs.joinp d target)
    · simp [searchDirs, h, List.find?_cons, Option.map]
    · simp only [searchDirs, h, if_false, Bool.false_eq_true, ih]
      rw [List.find?_cons_of_neg]
      simp [h]

/-- **C7**: `__search_tool_path_for` inspects, in order, the tool
directory (the tool path itself when it is a directory, else its
parent), then the process working directory `"."`, then the
caller-supplied extra directories in the order given; it returns the
absolutised first candidate whose join with the target exists and `None`
when none exists.  The `test_data` / `tool_data_table` override options
short-circuit discovery: the override's absolutised value is returned,
and the result does not depend on any filesystem content (only on
`abspath`), i.e. discovery does not run. -/
theorem claim7_search_order (fs : FS) (path target : String)
    (extraPaths : List String) (kwds : List (String × PyVal))
    (testDataDir : Option String) :
    (searchToolPathFor fs path target extraPaths =
      (((if fs.isdir path then path else fs.dirname path) :: "." :: extraPaths).find?
          (fun d => fs.pexists (fs.joinp d target))).map
        (fun d => fs.abspath (fs.joinp d target))) ∧
    ((∀ d ∈ (if fs.isdir path then path else fs.dirname path) :: "." :: extraPaths,
        fs.pexists (fs.joinp d target) = false) →
      searchToolPathFor fs path target extraPaths = none) ∧
    (∀ s : String, truthyStr kwds "test_data" = some s →
      findTestData fs path kwds = some (fs.abspath s)) ∧
    (∀ s : String, truthyStr kwds "tool_data_table" = some s →
      findToolDataTable fs path testDataDir kwds = some (fs.abspath s)) ∧
    (∀ fs2 : FS, fs.abspath = fs2.abspath →
      (truthyStr kwds "test_data").isSome →
      findTestData fs path kwds = findTestData fs2 path kwds) ∧
    (∀ fs2 : FS, fs.abspath = fs2.abspath →
      (truthyStr kwds "tool_data_table").isSome →
      findToolDataTable fs path testDataDir kwds =
        findToolDataTable fs2 path testDataDir kwds) := by
  refine ⟨searchDirs_eq_find fs target _, ?_, ?_, ?_, ?_, ?_⟩
  · intro hall
    show searchDirs fs target (possibleDirs fs path extraPaths) = none
    rw [searchDirs_eq_find fs target _]
    rw [List.find?_eq_none.mpr (fun d hd => by simp [hall d hd])]
    rfl
  · intro s hs
    simp [findTestData, hs]
  · intro s hs
    simp [findToolDataTable, hs]
  · intro fs2 habs hsome
    rcases ht : truthyStr kwds "test_data" with _ | s
    · rw [ht] at hsome; simp at hsome
    · simp [findTestData, ht, habs]
  · intro fs2 habs hsome
    rcases ht : truthyStr kwds "tool_data_table" with _ | s
    · rw [ht] at hsome; simp at hsome
    · simp [findToolDataTable, ht, habs]

/-- Witness for C7: on the concrete filesystem, searching for
`test-data` next to `/w/tools/mytool.xml` finds `/w/tools/test-data`,
and a `test_data` override wins. -/
theorem claim7_search_order_witness :
    searchToolPathFor fsEx "/w/tools/mytool.xml" "test-data" [] =
      (((if fsEx.isdir "/w/tools/mytool.xml" then "/w/tools/mytool.xml"
         else fsEx.dirname "/w/tools/mytool.xml") :: "." :: []).find?
          (fun d => fsEx.pexists (fsEx.joinp d "test-data"))).map
        (fun d => fsEx.abspath (fsEx.joinp d "test-data")) ∧
    findTestData fsEx "/w/tools/mytool.xml" [("test_data", PyVal.pvStr "td")] =
      some (fsEx.abspath "td") :=
  ⟨(claim7_search_order fsEx "/w/tools/mytool.xml" "test-data" [] [] none).1,
   (claim7_search_order fsEx "/w/tools/mytool.xml" "test-data" []
      [("test_data", PyVal.pvStr "td")] none).2.2.1 "td" (by decide)⟩

/-! ## Root-discovery characterization (claim C8) -/

theorem walkUpF_congr (fs : FS) :
    ∀ n m : Nat, ∀ d : String, fs.depth d < n → fs.depth d < m →
      walkUpF fs n d = walkUpF fs m d := by
  intro n
  induction n with
  | zero => intro m d hn _; omega
  | succ n ih =>
    intro m d hn hm
    cases m with
    | zero => omega
    | succ m' =>
      simp only [walkUpF]
      by_cases hg : goodRoot fs d
      · simp [hg]
      · simp only [hg, Bool.false_eq_true, if_false]
        by_cases hfix : fs.dirname d = d
        · simp [hfix]
        · simp only [hfix, if_false]
          have hlt := fs.dirname_depth d hfix
          exact ih m' (fs.dirname d) (by omega) (by omega)

theorem walkUpF_eq_find (fs : FS) :
    ∀ n : Nat, ∀ d : String, fs.depth d < n →
      walkUpF fs n d = (ancestorsF fs n d).find? (goodRoot fs) := by
  intro n
  induction n with
  | zero => intro d hn; omega
  | succ n ih =>
    intro d hn
    simp only [walkUpF, ancestorsF]
    by_cases hg : goodRoot fs d
    · simp [List.find?_cons, hg]
    · simp only [List.find?_cons, hg, Bool.false_eq_true, if_false]
      by_cases hfix : fs.dirname d = d
      · simp [hfix, List.find?]
      · simp only [hfix, if_false]
        have hlt := fs.dirname_depth d hfix
        exact ih (fs.dirname d) (by omega)

theorem walkUp_eq_find (fs : FS) (d : String) :
    walkUp fs d = (ancestors fs d).find? (goodRoot fs) :=
  walkUpF_eq_find fs (fs.depth d + 1) d (by omega)

theorem findGalaxyRoot_characterize (fs : FS) (ctx : Ctx)
    (kwds : List (String × PyVal))
    (h1 : truthyStr kwds "galaxy_root" = none)
    (h2 : truthyStr ctx.global_config "galaxy_root" = none) :
    findGalaxyRoot fs ctx kwds =
      match (ancestors fs fs.cwd).find? (goodRoot fs) with
      | some d => .ok d
      | none => .error .rootNotFound := by
  simp only [findGalaxyRoot, h1, h2, walkUp_eq_find]

/-- **C8**: with no `galaxy_root` override and no global default,
`__find_galaxy_root` walks upward from the working directory and returns
the first ancestor holding both a `run.sh` file and a `config`
subdirectory; when the walk exhausts all ancestors (reaching the
`dirname` fixed point, the filesystem root) without a match and
installation is not requested, the session fails with the fatal
root-not-found error; and when `install_galaxy` is requested, root
discovery is not invoked at all. -/
theorem claim8_root_discovery (fs : FS) (ctx : Ctx) (toolPath : String)
    (forTests : Bool) (kwds : List (String × PyVal)) (tmpName : String)
    (netOk : Bool) (ioFailAt : Option Nat) :
    ((truthyStr kwds "galaxy_root" = none) →
      (truthyStr ctx.global_config "galaxy_root" = none) →
      findGalaxyRoot fs ctx kwds =
        match (ancestors fs fs.cwd).find? (goodRoot fs) with
        | some d => .ok d
        | none => .error .rootNotFound) ∧
    ((truthyStr kwds "galaxy_root" = none) →
      (truthyStr ctx.global_config "galaxy_root" = none) →
      truthy (getD kwds "install_galaxy") = false →
      (ancestors fs fs.cwd).find? (goodRoot fs) = none →
      (run fs ctx toolPath forTests kwds tmpName netOk ioFailAt).outcome =
        .error .rootNotFound) ∧
    (truthy (getD kwds "install_galaxy") = true →
      (run fs ctx toolPath forTests kwds tmpName netOk ioFailAt).rootDiscoveryRan = false) := by
  refine ⟨findGalaxyRoot_characterize fs ctx kwds, ?_, ?_⟩
  · intro h1 h2 h3 h4
    have hg : findGalaxyRoot fs ctx kwds = .error .rootNotFound := by
      rw [findGalaxyRoot_characterize fs ctx kwds h1 h2, h4]
    simp [run, h3, hg, Except.map]
  · intro h
    simp [run, h]

/-- Witness for C8: on the concrete filesystem the walk from `/w/proj`
finds the root `/w` (which holds `run.sh` and `config/`), and with
`install_galaxy` requested root discovery is skipped. -/
theorem claim8_root_discovery_witness :
    findGalaxyRoot fsEx ctxEx [] =
      (match (ancestors fsEx fsEx.cwd).find? (goodRoot fsEx) with
       | some d => .ok d
       | none => .error .rootNotFound) ∧
    findGalaxyRoot fsEx ctxEx [] = .ok "/w" ∧
    (run fsBad ctxEx "/t" false [("install_galaxy", PyVal.pvBool true)] "/tmp/cfg"
        false none).rootDiscoveryRan = false := by
  have h1 := (claim8_root_discovery fsEx ctxEx "/t" false [] "/tmp/cfg" false none).1
    (by decide) (by decide)
  have h3 := (claim8_root_discovery fsBad ctxEx "/t" false
    [("install_galaxy", PyVal.pvBool true)] "/tmp/cfg" false none).2.2 (by decide)
  refine ⟨h1, ?_, h3⟩
  rw [h1]
  rfl

/-! ## Scoped-directory lifecycle (claim C4) -/

/-- **C4**: on every exit path of the session (normal completion,
validation failure, or I/O failure — all outcomes of `run`, including
every `ioFailAt` injection point), the working directory is removed iff
the session created it: a supplied `config_directory` is never removed,
and when none is supplied the ephemeral directory is removed whenever
the session reaches the point of creating it (i.e. root resolution did
not fail first). -/
theorem claim4_cleanup_iff_created (fs : FS) (ctx : Ctx) (toolPath : String)
    (forTests : Bool) (kwds : List (String × PyVal)) (tmpName : String)
    (netOk : Bool) (ioFailAt : Option Nat) :
    ((run fs ctx toolPath forTests kwds tmpName netOk ioFailAt).dirRemoved =
      (run fs ctx toolPath forTests kwds tmpName netOk ioFailAt).created) ∧
    ((truthyStr kwds "config_directory").isSome →
      (run fs ctx toolPath forTests kwds tmpName netOk ioFailAt).dirRemoved = false) ∧
    (truthyStr kwds "config_directory" = none →
      (truthy (getD kwds "install_galaxy") = true ∨
        ∃ root, findGalaxyRoot fs ctx kwds = .ok root) →
      (run fs ctx toolPath forTests kwds tmpName netOk ioFailAt).dirRemoved = true) := by
  refine ⟨?_, ?_, ?_⟩
  · by_cases hi : truthy (getD kwds "install_galaxy")
    · simp [run, hi]
    · rcases hfg : findGalaxyRoot fs ctx kwds with e | r0
      · simp [run, hi, hfg, Except.map]
      · simp [run, hi, hfg, Except.map]
  · intro hs
    rcases hcfg : truthyStr kwds "config_directory" with _ | s
    · rw [hcfg] at hs; simp at hs
    · by_cases hi : truthy (getD kwds "install_galaxy")
      · simp [run, hi, hcfg]
      · rcases hfg : findGalaxyRoot fs ctx kwds with e | r0
        · simp [run, hi, hfg, Except.map]
        · simp [run, hi, hfg, Except.map, hcfg]
  · intro hcfg hok
    rcases hok with hi | ⟨root, hroot⟩
    · simp [run, hi, hcfg]
    · by_cases hi : truthy (getD kwds "install_galaxy")
      · simp [run, hi, hcfg]
      · simp [run, hi, hroot, Except.map, hcfg]

/-- Witness for C4: with a supplied `config_directory` the directory is
not removed; with none supplied (and a discoverable root) it is. -/
theorem claim4_cleanup_iff_created_witness :
    (run fsEx ctxEx "/w/tools/mytool.xml" false
        [("config_directory", PyVal.pvStr "/pre")] "/tmp/cfg" false none).dirRemoved =
      false ∧
    (run fsEx ctxEx "/w/tools/mytool.xml" false [] "/tmp/cfg" false none).dirRemoved =
      true :=
  ⟨(claim4_cleanup_iff_created fsEx ctxEx "/w/tools/mytool.xml" false
      [("config_directory", PyVal.pvStr "/pre")] "/tmp/cfg" false none).2.1 (by decide),
   (claim4_cleanup_iff_created fsEx ctxEx "/w/tools/mytool.xml" false [] "/tmp/cfg"
      false none).2.2 (by decide) (Or.inr ⟨"/w", by rfl⟩)⟩

/-! ## Mutually exclusive resolver strategies (claim C2) -/

/-- **C2 counterexample**: conflicting resolver-strategy options do
*not* always surface as the user-input (usage) error, because
`__find_galaxy_root` runs first: with two strategy options truthy but no
discoverable Galaxy root, the session raises the root-not-found error
instead. -/
theorem claim2_usage_error_counterexample :
    countSelected [("brew_dependency_resolution", PyVal.pvBool true),
      ("dependency_resolvers_config_file", PyVal.pvStr "/x.xml")] = 2 ∧
    (run fsBad ctxEx "/t" false
        [("brew_dependency_resolution", PyVal.pvBool true),
         ("dependency_resolvers_config_file", PyVal.pvStr "/x.xml")]
        "/tmp/cfg" false none).outcome = .error .rootNotFound ∧
    PyErr.rootNotFound ≠ PyErr.usageError :=
  ⟨by decide, by rfl, by decide⟩

/-- **C2 (amended)**: provided root resolution does not fail first
(installation is requested or `__find_galaxy_root` succeeds), an options
mapping with more than one truthy resolver-strategy key makes the
session fail with the user-input usage error, with no generated file
written at that point. -/
theorem claim2_mutual_exclusion (fs : FS) (ctx : Ctx) (toolPath : String)
    (forTests : Bool) (kwds : List (String × PyVal)) (tmpName : String)
    (netOk : Bool) (ioFailAt : Option Nat)
    (hsel : 1 < countSelected kwds)
    (hroot : truthy (getD kwds "install_galaxy") = true ∨
      ∃ r, findGalaxyRoot fs ctx kwds = .ok r) :
    (run fs ctx toolPath forTests kwds tmpName netOk ioFailAt).outcome =
      .error .usageError ∧
    (run fs ctx toolPath forTests kwds tmpName netOk ioFailAt).writes = [] := by
  have hdep : ∀ c : String, handleDependencyResolution fs c ioFailAt kwds [] =
      (.error .usageError, []) := by
    intro c
    simp [handleDependencyResolution, hsel]
  rcases hroot with hi | ⟨r0, hr0⟩
  · constructor <;> simp [run, runBody, hi, hdep]
  · by_cases hi : truthy (getD kwds "install_galaxy")
    · constructor <;> simp [run, runBody, hi, hdep]
    · constructor <;> simp [run, runBody, hi, hr0, Except.map, hdep]

/-- Witness for amended C2: both stock strategies requested on the
concrete filesystem with a discoverable root yields the usage error and
an empty write list. -/
theorem claim2_mutual_exclusion_witness :
    (run fsEx ctxEx "/w/tools/mytool.xml" false
        [("brew_dependency_resolution", PyVal.pvBool true),
         ("shed_brew_dependency_resolution", PyVal.pvBool true)]
        "/tmp/cfg" false none).outcome = .error .usageError ∧
    (run fsEx ctxEx "/w/tools/mytool.xml" false
        [("brew_dependency_resolution", PyVal.pvBool true),
         ("shed_brew_dependency_resolution", PyVal.pvBool true)]
        "/tmp/cfg" false none).writes = [] :=
  claim2_mutual_exclusion fsEx ctxEx "/w/tools/mytool.xml" false
    [("brew_dependency_resolution", PyVal.pvBool true),
     ("shed_brew_dependency_resolution", PyVal.pvBool true)]
    "/tmp/cfg" false none (by decide) (Or.inr ⟨"/w", by rfl⟩)

/-! ## Success-path inversion of the session pipeline -/

theorem handleJobMetrics_ok (fs : FS) (c : String) (ioFailAt : Option Nat)
    (kwds kwds2 : List (String × PyVal)) (w w2 : List (String × String))
    (h : handleJobMetrics fs c ioFailAt kwds w = (.ok kwds2, w2)) :
    kwds2 = setKV kwds "job_metrics_config_file"
      (.pvStr (fs.joinp c "job_metrics_conf.xml")) := by
  unfold handleJobMetrics at h
  split at h
  · simp at h
  · simp only [Prod.mk.injEq, Except.ok.injEq] at h
    exact h.1.symm

theorem countSelected_ge_two (kwds : List (String × PyVal))
    (hb : truthy (getD kwds "brew_dependency_resolution") = true)
    (hs : truthy (getD kwds "shed_brew_dependency_resolution") = true) :
    2 ≤ countSelected kwds := by
  simp only [countSelected, resolutionsStrategies, List.countP_cons, List.countP_nil,
    hb, hs, if_true]
  split <;> omega

theorem handleDependencyResolution_ok (fs : FS) (c : String) (ioFailAt : Option Nat)
    (kwds kwds1 : List (String × PyVal)) (w1 : List (String × String))
    (h : handleDependencyResolution fs c ioFailAt kwds [] = (.ok kwds1, w1)) :
    (∀ k, k ≠ "tool_dependency_dir" → k ≠ "dependency_resolvers_config_file" →
      getD kwds1 k = getD kwds k) ∧
    ((truthy (getD kwds "brew_dependency_resolution") = false ∧
      truthy (getD kwds "shed_brew_dependency_resolution") = false) → kwds1 = kwds) := by
  unfold handleDependencyResolution at h
  split at h
  · simp at h
  · rename_i hguard
    by_cases hb : truthy (getD kwds "brew_dependency_resolution") <;>
      by_cases hs : truthy (getD kwds "shed_brew_dependency_resolution")
    · exact absurd (countSelected_ge_two kwds hb hs) (by omega)
    · -- brew only: kwds is set twice, shed stays falsy afterwards
      have hs2 : truthy (getD (setKV (setKV kwds "tool_dependency_dir"
          (.pvStr (fs.joinp "config_directory" "deps")))
          "dependency_resolvers_config_file"
          (.pvStr (fs.joinp c "resolvers_conf.xml")))
          "shed_brew_dependency_resolution") = false := by
        rw [getD_setKV_ne _ _ _ _ (by decide), getD_setKV_ne _ _ _ _ (by decide)]
        simpa using hs
      simp only [stockLoop, STOCK_DEPENDENCY_RESOLUTION_STRATEGIES, hb, if_true, hs2] at h
      split at h
      · simp at h
      · simp only [Bool.false_eq_true, if_false, Prod.mk.injEq, Except.ok.injEq] at h
        refine ⟨?_, ?_⟩
        · intro k hk1 hk2
          rw [← h.1, getD_setKV_ne _ _ _ _ (Ne.symm hk2), getD_setKV_ne _ _ _ _ (Ne.symm hk1)]
        · intro hfalsy
          exact absurd hb (by simp [hfalsy.1])
    · -- shed only
      have hb2 : truthy (getD kwds "brew_dependency_resolution") = false := by
        simpa using hb
      simp only [stockLoop, STOCK_DEPENDENCY_RESOLUTION_STRATEGIES, hb2, Bool.false_eq_true,
        if_false, hs, if_true] at h
      split at h
      · simp at h
      · simp only [Prod.mk.injEq, Except.ok.injEq] at h
        refine ⟨?_, ?_⟩
        · intro k hk1 hk2
          rw [← h.1, getD_setKV_ne _ _ _ _ (Ne.symm hk2), getD_setKV_ne _ _ _ _ (Ne.symm hk1)]
        · intro hfalsy
          exact absurd hs (by simp [hfalsy.2])
    · -- neither stock strategy
      have hb2 : truthy (getD kwds "brew_dependency_resolution") = false := by simpa using hb
      have hs2 : truthy (getD kwds "shed_brew_dependency_resolution") = false := by simpa using hs
      simp only [stockLoop, STOCK_DEPENDENCY_RESOLUTION_STRATEGIES, hb2, hs2,
        Bool.false_eq_true, if_false, Prod.mk.injEq, Except.ok.injEq] at h
      exact ⟨fun k _ _ => by rw [h.1], fun _ => h.1.symm⟩

theorem runBody_ok_shape (fs : FS) (toolPath : String) (forTests : Bool)
    (kwds : List (String × PyVal)) (netOk : Bool) (ioFailAt : Option Nat)
    (root0 : Option String) (install : Bool) (cfgDir : String)
    (testDataDir toolDataTable : Option String) (payload : SessionPayload)
    (h : (runBody fs toolPath forTests kwds netOk ioFailAt root0 install cfgDir
        testDataDir toolDataTable).1 = .ok payload) :
    ∃ (kwds1 : List (String × PyVal)) (w1 : List (String × String)),
      handleDependencyResolution fs cfgDir ioFailAt kwds [] = (.ok kwds1, w1) ∧
      payload.configDirectory = cfgDir ∧
      payload.testDataDir = testDataDir ∧
      payload.propsBefore =
        derivedProperties forTests (fs.joinp cfgDir "tool_conf.xml") toolDataTable
          (fs.joinp cfgDir "empty_tool_conf.xml") testDataDir ∧
      payload.props = handleKwdOverrides payload.propsBefore
        (setKV kwds1 "job_metrics_config_file"
          (.pvStr (fs.joinp cfgDir "job_metrics_conf.xml"))) := by
  unfold runBody at h
  rcases hdr : handleDependencyResolution fs cfgDir ioFailAt kwds [] with ⟨res1, w1⟩
  rw [hdr] at h
  cases res1 with
  | error e => simp at h
  | ok kwds1 =>
    dsimp only at h
    rcases hjm : handleJobMetrics fs cfgDir ioFailAt kwds1 w1 with ⟨res2, w2⟩
    rw [hjm] at h
    cases res2 with
    | error e => simp at h
    | ok kwds2 =>
      dsimp only at h
      have hk2 := handleJobMetrics_ok fs cfgDir ioFailAt kwds1 kwds2 w1 w2 hjm
      repeat' split at h
      all_goals first
        | (dsimp only at h
           simp only [Except.ok.injEq] at h
           refine ⟨kwds1, w1, by rfl, ?_, ?_, ?_, ?_⟩ <;> rw [← h] <;> simp [hk2])
        | simp at h

theorem run_ok_shape (fs : FS) (ctx : Ctx) (toolPath : String) (forTests : Bool)
    (kwds : List (String × PyVal)) (tmpName : String) (netOk : Bool)
    (ioFailAt : Option Nat) (payload : SessionPayload)
    (h : (run fs ctx toolPath forTests kwds tmpName netOk ioFailAt).outcome =
      .ok payload) :
    ∃ (kwds1 : List (String × PyVal)) (w1 : List (String × String)),
      handleDependencyResolution fs ((truthyStr kwds "config_directory").getD tmpName)
        ioFailAt kwds [] = (.ok kwds1, w1) ∧
      payload.configDirectory = (truthyStr kwds "config_directory").getD tmpName ∧
      payload.testDataDir = findTestData fs toolPath kwds ∧
      payload.propsBefore =
        derivedProperties forTests
          (fs.joinp payload.configDirectory "tool_conf.xml")
          (findToolDataTable fs toolPath (findTestData fs toolPath kwds) kwds)
          (fs.joinp payload.configDirectory "empty_tool_conf.xml")
          (findTestData fs toolPath kwds) ∧
      payload.props = handleKwdOverrides payload.propsBefore
        (setKV kwds1 "job_metrics_config_file"
          (.pvStr (fs.joinp payload.configDirectory "job_metrics_conf.xml"))) := by
  by_cases hi : truthy (getD kwds "install_galaxy")
  · simp only [run, hi, if_true] at h
    obtain ⟨kwds1, w1, hdr, hcd, htd, hpb, hp⟩ := runBody_ok_shape fs toolPath forTests
      kwds netOk ioFailAt none true ((truthyStr kwds "config_directory").getD tmpName)
      (findTestData fs toolPath kwds)
      (findToolDataTable fs toolPath (findTestData fs toolPath kwds) kwds) payload h
    exact ⟨kwds1, w1, hdr, hcd, htd, by rw [hpb, hcd], by rw [hp, hcd]⟩
  · rcases hfg : findGalaxyRoot fs ctx kwds with e | r0
    · simp [run, hi, hfg, Except.map] at h
    · simp only [run, hi, hfg, Except.map, Bool.false_eq_true, if_false] at h
      obtain ⟨kwds1, w1, hdr, hcd, htd, hpb, hp⟩ := runBody_ok_shape fs toolPath forTests
        kwds netOk ioFailAt (some r0) false
        ((truthyStr kwds "config_directory").getD tmpName)
        (findTestData fs toolPath kwds)
        (findToolDataTable fs toolPath (findTestData fs toolPath kwds) kwds) payload h
      exact ⟨kwds1, w1, hdr, hcd, htd, by rw [hpb, hcd], by rw [hp, hcd]⟩

/-! ## `database_connection` presence (claim C3) -/

theorem lookupKV_derivedProperties_db (forTests : Bool) (toolConf : String)
    (toolDataTable : Option String) (emptyToolConf : String)
    (testDataDir : Option String) :
    lookupKV (derivedProperties forTests toolConf toolDataTable emptyToolConf testDataDir)
        "database_connection" =
      if forTests then none
      else some (.pvStr "sqlite:///${database_location}?isolation_level=IMMEDIATE") := by
  cases forTests <;> simp [derivedProperties, lookupKV]

/-- **C3**: a successful session's final property map contains the
`database_connection` key iff `for_tests` is false: the derived map adds
it exactly when `for_tests` is false, and the override layer (restricted
to its four allow-listed keys) can neither add nor remove it. -/
theorem claim3_database_connection_iff (fs : FS) (ctx : Ctx) (toolPath : String)
    (forTests : Bool) (kwds : List (String × PyVal)) (tmpName : String)
    (netOk : Bool) (ioFailAt : Option Nat) (payload : SessionPayload)
    (h : (run fs ctx toolPath forTests kwds tmpName netOk ioFailAt).outcome =
      .ok payload) :
    (lookupKV payload.props "database_connection").isSome = !forTests := by
  obtain ⟨kwds1, w1, hdr, hcd, htd, hpb, hp⟩ :=
    run_ok_shape fs ctx toolPath forTests kwds tmpName netOk ioFailAt payload h
  rw [hp]
  unfold handleKwdOverrides
  rw [lookupKV_overridesFold_notmem _ _ _ _ (by decide)]
  rw [hpb, lookupKV_derivedProperties_db]
  cases forTests <;> simp

/-- Witness for C3: with `for_tests=True` the key is absent, with
`for_tests=False` it is present, on a concrete session. -/
theorem claim3_database_connection_iff_witness :
    (∃ p, (run fsEx ctxEx "/w/tools/mytool.xml" true [] "/tmp/cfg" false none).outcome =
        .ok p ∧ (lookupKV p.props "database_connection").isSome = !true) ∧
    (∃ p, (run fsEx ctxEx "/w/tools/mytool.xml" false [] "/tmp/cfg" false none).outcome =
        .ok p ∧ (lookupKV p.props "database_connection").isSome = !false) := by
  constructor
  · obtain ⟨p, hp⟩ : ∃ p,
        (run fsEx ctxEx "/w/tools/mytool.xml" true [] "/tmp/cfg" false none).outcome =
          .ok p := ⟨_, rfl⟩
    exact ⟨p, hp, claim3_database_connection_iff fsEx ctxEx "/w/tools/mytool.xml" true []
      "/tmp/cfg" false none p hp⟩
  · obtain ⟨p, hp⟩ : ∃ p,
        (run fsEx ctxEx "/w/tools/mytool.xml" false [] "/tmp/cfg" false none).outcome =
          .ok p := ⟨_, rfl⟩
    exact ⟨p, hp, claim3_database_connection_iff fsEx ctxEx "/w/tools/mytool.xml" false []
      "/tmp/cfg" false none p hp⟩

/-! ## Override precedence (claim C1) -/

/-- **C1 (amended)**: in a successful session, a truthy user
`job_config_file` option always becomes that property's final value;
truthy `dependency_resolvers_config_file` and `tool_dependency_dir`
options become their properties' final values provided no stock resolver
strategy is selected (a stock strategy overwrites those two `kwds`
entries first); the user's `job_metrics_config_file` option never takes
effect — `__handle_job_metrics` unconditionally redirects that key to
the derived metrics path before overrides run; and the override layer
changes no key outside the four-key allow-list (options such as
`test_data` can still change the property map through derivation, not
through this layer). -/
theorem claim1_override_precedence (fs : FS) (ctx : Ctx) (toolPath : String)
    (forTests : Bool) (kwds : List (String × PyVal)) (tmpName : String)
    (netOk : Bool) (ioFailAt : Option Nat) (payload : SessionPayload)
    (h : (run fs ctx toolPath forTests kwds tmpName netOk ioFailAt).outcome =
      .ok payload) :
    (truthy (getD kwds "job_config_file") = true →
      lookupKV payload.props "job_config_file" =
        some (getD kwds "job_config_file")) ∧
    (truthy (getD kwds "brew_dependency_resolution") = false →
      truthy (getD kwds "shed_brew_dependency_resolution") = false →
      (truthy (getD kwds "dependency_resolvers_config_file") = true →
        lookupKV payload.props "dependency_resolvers_config_file" =
          some (getD kwds "dependency_resolvers_config_file")) ∧
      (truthy (getD kwds "tool_dependency_dir") = true →
        lookupKV payload.props "tool_dependency_dir" =
          some (getD kwds "tool_dependency_dir"))) ∧
    (lookupKV payload.props "job_metrics_config_file" =
      some (.pvStr (fs.joinp payload.configDirectory "job_metrics_conf.xml"))) ∧
    (∀ k, k ∉ kwdsGxProperties →
      lookupKV payload.props k = lookupKV payload.propsBefore k) := by
  obtain ⟨kwds1, w1, hdr, hcd, htd, hpb, hp⟩ :=
    run_ok_shape fs ctx toolPath forTests kwds tmpName netOk ioFailAt payload h
  obtain ⟨hpres, hnostock⟩ :=
    handleDependencyResolution_ok fs ((truthyStr kwds "config_directory").getD tmpName)
      ioFailAt kwds kwds1 w1 hdr
  have hcd' : payload.configDirectory = (truthyStr kwds "config_directory").getD tmpName :=
    hcd
  refine ⟨?_, ?_, ?_, ?_⟩
  · intro ht
    rw [hp]
    unfold handleKwdOverrides
    rw [lookupKV_overridesFold_mem _ _ _ _ (by decide) (by decide) ?side]
    case side =>
      rw [getD_setKV_ne _ _ _ _ (by decide), hpres _ (by decide) (by decide)]
      exact ht
    rw [getD_setKV_ne _ _ _ _ (by decide), hpres _ (by decide) (by decide)]
  · intro hb hs
    have hk1 : kwds1 = kwds := hnostock ⟨hb, hs⟩
    subst hk1
    constructor
    · intro ht
      rw [hp]
      unfold handleKwdOverrides
      rw [lookupKV_overridesFold_mem _ _ _ _ (by decide) (by decide) ?side2]
      case side2 =>
        rw [getD_setKV_ne _ _ _ _ (by decide)]
        exact ht
      rw [getD_setKV_ne _ _ _ _ (by decide)]
    · intro ht
      rw [hp]
      unfold handleKwdOverrides
      rw [lookupKV_overridesFold_mem _ _ _ _ (by decide) (by decide) ?side3]
      case side3 =>
        rw [getD_setKV_ne _ _ _ _ (by decide)]
        exact ht
      rw [getD_setKV_ne _ _ _ _ (by decide)]
  · rw [hp]
    unfold handleKwdOverrides
    have hmet : getD (setKV kwds1 "job_metrics_config_file"
        (.pvStr (fs.joinp payload.configDirectory "job_metrics_conf.xml")))
        "job_metrics_config_file" =
        .pvStr (fs.joinp payload.configDirectory "job_metrics_conf.xml") := by
      rw [hcd']
      exact getD_setKV_self _ _ _
    have hne : fs.joinp ((truthyStr kwds "config_directory").getD tmpName)
        "job_metrics_conf.xml" ≠ "" :=
      fs.joinp_ne _ _ (by decide)
    rw [lookupKV_overridesFold_mem _ _ _ _ (by decide) (by decide) ?side4]
    case side4 =>
      rw [hcd'] at hmet ⊢
      rw [hmet]
      simpa [truthy] using hne
    rw [hcd'] at hmet ⊢
    rw [hmet]
  · intro k hk
    rw [hp]
    unfold handleKwdOverrides
    rw [lookupKV_overridesFold_notmem _ _ _ _ hk]

/-- **C1 counterexample**: a user-supplied `job_metrics_config_file`
value does not end up in the final property map (it is overwritten by
the derived metrics path before the override layer runs), and the
non-allow-listed `test_data` option does change the final property map
(through `test_data_dir`). -/
theorem claim1_override_precedence_counterexample :
    truthy (getD [("galaxy_root", PyVal.pvStr "/gx"),
      ("job_metrics_config_file", PyVal.pvStr "/user/metrics.xml")]
      "job_metrics_config_file") = true ∧
    (run fsEx ctxEx "/w/tools/mytool.xml" true
        [("galaxy_root", PyVal.pvStr "/gx"),
         ("job_metrics_config_file", PyVal.pvStr "/user/metrics.xml")]
        "/tmp/cfg" false none).outcome.map
      (fun p => lookupKV p.props "job_metrics_config_file") =
      .ok (some (.pvStr "/tmp/cfg/job_metrics_conf.xml")) ∧
    (some (PyVal.pvStr "/tmp/cfg/job_metrics_conf.xml") ≠
      some (PyVal.pvStr "/user/metrics.xml")) ∧
    "test_data" ∉ kwdsGxProperties ∧
    (run fsEx ctxEx "/w/tools/mytool.xml" true
        [("galaxy_root", PyVal.pvStr "/gx"), ("test_data", PyVal.pvStr "mydata")]
        "/tmp/cfg" false none).outcome.map
      (fun p => lookupKV p.props "test_data_dir") =
      .ok (some (.pvStr "mydata")) ∧
    (run fsEx ctxEx "/w/tools/mytool.xml" true
        [("galaxy_root", PyVal.pvStr "/gx")]
        "/tmp/cfg" false none).outcome.map
      (fun p => lookupKV p.props "test_data_dir") =
      .ok (some (.pvStr "/w/tools/test-data")) ∧
    (some (PyVal.pvStr "mydata") ≠ some (PyVal.pvStr "/w/tools/test-data")) :=
  ⟨by decide, by rfl, by decide, by decide, by rfl, by rfl, by decide⟩

/-- Witness for amended C1: on a concrete session, a truthy
`job_config_file` override lands in the final property map, and the
`job_metrics_config_file` property is the derived path. -/
theorem claim1_override_precedence_witness :
    ∃ p, (run fsEx ctxEx "/w/tools/mytool.xml" true
        [("galaxy_root", PyVal.pvStr "/gx"), ("job_config_file", PyVal.pvStr "/jobs.xml")]
        "/tmp/cfg" false none).outcome = .ok p ∧
      lookupKV p.props "job_config_file" =
        some (getD [("galaxy_root", PyVal.pvStr "/gx"),
          ("job_config_file", PyVal.pvStr "/jobs.xml")] "job_config_file") ∧
      lookupKV p.props "job_metrics_config_file" =
        some (.pvStr (fsEx.joinp p.configDirectory "job_metrics_conf.xml")) := by
  obtain ⟨p, hp⟩ : ∃ p,
      (run fsEx ctxEx "/w/tools/mytool.xml" true
        [("galaxy_root", PyVal.pvStr "/gx"), ("job_config_file", PyVal.pvStr "/jobs.xml")]
        "/tmp/cfg" false none).outcome = .ok p := ⟨_, rfl⟩
  have hc := claim1_override_precedence fsEx ctxEx "/w/tools/mytool.xml" true
    [("galaxy_root", PyVal.pvStr "/gx"), ("job_config_file", PyVal.pvStr "/jobs.xml")]
    "/tmp/cfg" false none p hp
  exact ⟨p, hp, hc.1 (by decide), hc.2.2.1⟩

/-! ## Environment mapping (claim C9) -/

theorem prefix_ne_of_seventh (u : String) (a : String)
    (ha : a.data[7]? = some 'T') : "GALAXY_CONFIG_OVERRIDE_" ++ u ≠ a := by
  intro heq
  have hd : ("GALAXY_CONFIG_OVERRIDE_" ++ u).data = a.data := congrArg String.data heq
  rw [String.data_append] at hd
  have h7 := congrArg (fun l : List Char => l[7]?) hd
  simp only at h7
  rw [List.getElem?_append] at h7
  have hlt : (7 : Nat) < "GALAXY_CONFIG_OVERRIDE_".data.length := by decide
  rw [if_pos hlt] at h7
  rw [ha] at h7
  have : ("GALAXY_CONFIG_OVERRIDE_".data)[7]? = some 'C' := by decide
  rw [this] at h7
  simp at h7

theorem string_append_left_cancel (p a b : String) (h : p ++ a = p ++ b) : a = b := by
  have hd := congrArg String.data h
  rw [String.data_append, String.data_append] at hd
  exact String.ext (List.append_cancel_left hd)

theorem envVarOf_ne (k a : String) (ha : a.data[7]? = some 'T') : envVarOf k ≠ a :=
  prefix_ne_of_seventh (upperStr k) a ha

theorem buildEnvGo_lookup_frozen (args : List (String × String))
    (props : List (String × PyVal)) (a : String)
    (hfree : ∀ p ∈ props, envVarOf p.1 ≠ a) :
    ∀ env e : List (String × PyVal), buildEnvGo args props env = .ok e →
      lookupKV e a = lookupKV env a := by
  induction props with
  | nil =>
    intro env e h
    simp only [buildEnvGo, Except.ok.injEq] at h
    rw [← h]
  | cons p rest ih =>
    intro env e h
    obtain ⟨k0, v0⟩ := p
    unfold buildEnvGo at h
    rcases hs : subPyVal v0 args with _ | s0 <;> rw [hs] at h
    · simp at h
    · simp only at h
      have hrest : ∀ q ∈ rest, envVarOf q.1 ≠ a :=
        fun q hq => hfree q (List.mem_cons_of_mem _ hq)
      rw [ih hrest _ _ h]
      exact lookupKV_setKV_ne _ _ _ _ (hfree (k0, v0) (List.mem_cons_self _ _))

theorem buildEnvGo_lookup_mem (args : List (String × String)) :
    ∀ props : List (String × PyVal), ∀ env e : List (String × PyVal),
      buildEnvGo args props env = .ok e →
      (props.map (fun p => upperStr p.1)).Nodup →
      ∀ k v, (k, v) ∈ props →
        ∃ s, subPyVal v args = .ok s ∧ lookupKV e (envVarOf k) = some (.pvStr s) := by
  intro props
  induction props with
  | nil => intro env e _ _ k v hmem; cases hmem
  | cons p rest ih =>
    intro env e h hnd k v hmem
    obtain ⟨k0, v0⟩ := p
    unfold buildEnvGo at h
    rcases hs : subPyVal v0 args with _ | s0 <;> rw [hs] at h
    · simp at h
    · simp only at h
      simp only [List.map_cons, List.nodup_cons] at hnd
      rcases List.mem_cons.mp hmem with heq | hmem'
      · have hk : k = k0 := congrArg Prod.fst heq
        have hv : v = v0 := congrArg Prod.snd heq
        subst hk
        subst hv
        refine ⟨s0, hs, ?_⟩
        have hfree : ∀ q ∈ rest, envVarOf q.1 ≠ envVarOf k := by
          intro q hq hcontra
          apply hnd.1
          have : upperStr q.1 = upperStr k :=
            string_append_left_cancel "GALAXY_CONFIG_OVERRIDE_" _ _ hcontra
          rw [← this]
          exact List.mem_map.mpr ⟨q, hq, rfl⟩
        rw [buildEnvGo_lookup_frozen args rest (envVarOf k) hfree _ _ h]
        exact lookupKV_setKV_self _ _ _
      · exact ih _ _ h hnd.2 k v hmem'

theorem lookupKV_testFold_notmem (props : List (String × PyVal))
    (tvs : List (String × String)) (env : List (String × PyVal)) (a : String)
    (ha : ∀ tv ∈ tvs, tv.1 ≠ a) :
    lookupKV (tvs.foldl
      (fun e tv =>
        match getD props tv.2 with
        | .pvNone => e
        | v => setKV e tv.1 v) env) a = lookupKV env a := by
  induction tvs generalizing env with
  | nil => rfl
  | cons tv rest ih =>
    have hne : tv.1 ≠ a := ha tv (List.mem_cons_self _ _)
    have hrest : ∀ q ∈ rest, q.1 ≠ a := fun q hq => ha q (List.mem_cons_of_mem _ hq)
    simp only [List.foldl_cons]
    rw [ih _ hrest]
    rcases getD props tv.2 with _ | b | n | s
    · rfl
    · exact lookupKV_setKV_ne _ _ _ _ hne
    · exact lookupKV_setKV_ne _ _ _ _ hne
    · exact lookupKV_setKV_ne _ _ _ _ hne

theorem lookupKV_testFold_mem (props : List (String × PyVal))
    (tvs : List (String × String)) (env : List (String × PyVal)) (tk gk : String)
    (hmem : (tk, gk) ∈ tvs) (hnd : (tvs.map Prod.fst).Nodup) :
    lookupKV (tvs.foldl
      (fun e tv =>
        match getD props tv.2 with
        | .pvNone => e
        | v => setKV e tv.1 v) env) tk =
      (match getD props gk with
       | .pvNone => lookupKV env tk
       | v => some v) := by
  induction tvs generalizing env with
  | nil => cases hmem
  | cons tv rest ih =>
    obtain ⟨tk0, gk0⟩ := tv
    simp only [List.map_cons, List.nodup_cons] at hnd
    simp only [List.foldl_cons]
    rcases List.mem_cons.mp hmem with heq | hmem'
    · simp only [Prod.mk.injEq] at heq
      obtain ⟨h1, h2⟩ := heq
      subst h1
      subst h2
      have hrest : ∀ q ∈ rest, q.1 ≠ tk := by
        intro q hq hc
        exact hnd.1 (hc ▸ List.mem_map.mpr ⟨q, hq, rfl⟩)
      rw [lookupKV_testFold_notmem props rest _ tk hrest]
      rcases getD props gk with _ | b | n | s
      · rfl
      · exact lookupKV_setKV_self _ _ _
      · exact lookupKV_setKV_self _ _ _
      · exact lookupKV_setKV_self _ _ _
    · have htk0 : tk0 ≠ tk := fun hc =>
        hnd.1 (hc ▸ List.mem_map.mpr ⟨(tk, gk), hmem', rfl⟩)
      rw [ih _ hmem' hnd.2]
      rcases getD props gk with _ | b | n | s2
      · rcases getD props gk0 with _ | b0 | n0 | s0
        · rfl
        · exact lookupKV_setKV_ne _ _ _ _ htk0
        · exact lookupKV_setKV_ne _ _ _ _ htk0
        · exact lookupKV_setKV_ne _ _ _ _ htk0
      · rfl
      · rfl
      · rfl

/-- **C9**: for distinct property keys (distinct after uppercasing, as
Python dict keys are), every property `(k, v)` of the final map is
exposed in the environment as `GALAXY_CONFIG_OVERRIDE_<K.upper>` whose
value is `v` after a single `__sub` pass over the template arguments;
and each legacy alias of `test_property_variants` is present exactly
when its underlying property is set (present and non-`None`), carrying
the property's raw, unsubstituted value. -/
theorem claim9_env_mapping (props : List (String × PyVal))
    (args : List (String × String)) (env0 : List (String × PyVal))
    (hnd : (props.map (fun p => upperStr p.1)).Nodup)
    (henv : buildEnvForGalaxy props args = .ok env0) :
    (∀ k v, (k, v) ∈ props → ∃ s, subPyVal v args = .ok s ∧
      lookupKV (buildTestEnv props env0) ("GALAXY_CONFIG_OVERRIDE_" ++ upperStr k) =
        some (.pvStr s)) ∧
    (∀ tk gk, (tk, gk) ∈ testPropertyVariants →
      lookupKV (buildTestEnv props env0) tk =
        (match getD props gk with
         | .pvNone => none
         | v => some v)) := by
  have haliasT : ∀ tv ∈ testPropertyVariants, (tv.1.data)[7]? = some 'T' := by
    intro tv htv
    fin_cases htv <;> decide
  constructor
  · intro k v hmem
    obtain ⟨s, hs, hlook⟩ :=
      buildEnvGo_lookup_mem args props [] env0 henv hnd k v hmem
    refine ⟨s, hs, ?_⟩
    have hfree : ∀ tv ∈ testPropertyVariants, tv.1 ≠ envVarOf k := by
      intro tv htv
      exact (envVarOf_ne k tv.1 (haliasT tv htv)).symm
    show lookupKV (testPropertyVariants.foldl
      (fun e tv =>
        match getD props tv.2 with
        | .pvNone => e
        | v => setKV e tv.1 v) env0) (envVarOf k) = some (.pvStr s)
    rw [lookupKV_testFold_notmem props testPropertyVariants env0 (envVarOf k) hfree]
    exact hlook
  · intro tk gk hmem
    have hT : (tk.data)[7]? = some 'T' := haliasT (tk, gk) hmem
    have henv0 : lookupKV env0 tk = none := by
      have hfree : ∀ p ∈ props, envVarOf p.1 ≠ tk :=
        fun p _ => envVarOf_ne p.1 tk hT
      rw [buildEnvGo_lookup_frozen args props tk hfree [] env0 henv]
      rfl
    show lookupKV (testPropertyVariants.foldl
      (fun e tv =>
        match getD props tv.2 with
        | .pvNone => e
        | v => setKV e tv.1 v) env0) tk = _
    rw [lookupKV_testFold_mem props testPropertyVariants env0 tk gk hmem (by decide)]
    rcases getD props gk with _ | b | n | s
    · exact henv0
    · rfl
    · rfl
    · rfl

/-- Witness for C9: a concrete two-property map; the uppercased override
variable carries the substituted value, the `GALAXY_TEST_TOOL_CONF`
alias is present with the raw value, and the `GALAXY_TEST_FILE_DIR`
alias is absent because `test_data_dir` is `None`. -/
theorem claim9_env_mapping_witness :
    (∃ s, subPyVal (PyVal.pvStr "${temp_directory}/tc") [("temp_directory", "/t")] =
        .ok s ∧
      lookupKV
        (buildTestEnv [("tool_config_file", PyVal.pvStr "${temp_directory}/tc"),
            ("test_data_dir", PyVal.pvNone)]
          ((buildEnvForGalaxy [("tool_config_file", PyVal.pvStr "${temp_directory}/tc"),
              ("test_data_dir", PyVal.pvNone)] [("temp_directory", "/t")]).toOption.getD []))
        ("GALAXY_CONFIG_OVERRIDE_" ++ upperStr "tool_config_file") = some (.pvStr s)) ∧
    lookupKV
      (buildTestEnv [("tool_config_file", PyVal.pvStr "${temp_directory}/tc"),
          ("test_data_dir", PyVal.pvNone)]
        ((buildEnvForGalaxy [("tool_config_file", PyVal.pvStr "${temp_directory}/tc"),
            ("test_data_dir", PyVal.pvNone)] [("temp_directory", "/t")]).toOption.getD []))
      "GALAXY_TEST_FILE_DIR" = none := by
  have henv : buildEnvForGalaxy [("tool_config_file", PyVal.pvStr "${temp_directory}/tc"),
      ("test_data_dir", PyVal.pvNone)] [("temp_directory", "/t")] =
      .ok ((buildEnvForGalaxy [("tool_config_file", PyVal.pvStr "${temp_directory}/tc"),
        ("test_data_dir", PyVal.pvNone)] [("temp_directory", "/t")]).toOption.getD []) := by
    rfl
  have hc := claim9_env_mapping _ _ _ (by decide) henv
  refine ⟨?_, ?_⟩
  · exact hc.1 "tool_config_file" (PyVal.pvStr "${temp_directory}/tc")
      (List.mem_cons_self _ _)
  · have := hc.2 "GALAXY_TEST_FILE_DIR" "test_data_dir"
      (by decide)
    rw [this]
    rfl
